import Mathlib

/-!
# cfddns-go: a shallow embedding of the provider client, the configuration
validator, the command front-end and the notifier

Go `string` values are modelled as lists of characters (`Str`).  Every
string operation the embedded code performs (`strings.Split` on `"."`,
`strings.ReplaceAll` with one-character patterns, `strings.HasSuffix`,
concatenation) acts on whole UTF-8 sequences, so working on characters
instead of bytes does not change any result.  Go `int` values are modelled
as `Int`: the embedded code only compares them with constants.

Calls that leave the process (HTTP round trips, the file system, the clock,
the environment) are taken as parameters, and each operation returns the
requests it issued next to its Go return value.  Output printed in verbose
mode is not part of any result and is left out, except in `getConfig`,
whose only reaction to a validation failure is such a line.
-/

namespace Cfddns

/-- A Go `string`, as the list of its characters. -/
abbrev Str := List Char

/-! ## The functions of Go's `strings` package used by the sources -/

namespace strings

/-- Model of `strings.Split(s, sep)` for a one-character separator: the
pieces between the occurrences of `sep`; a string without `sep` (the empty
string included) gives exactly one piece. -/
def Split (s : Str) (sep : Char) : List Str :=
  match s with
  | [] => [[]]
  | c :: cs =>
    if c = sep then [] :: Split cs sep
    else
      match Split cs sep with
      | [] => [[c]]
      | p :: ps => (c :: p) :: ps

/-- Model of `strings.ToLower` on ASCII text (host names): the letters
`A`-`Z` are mapped to `a`-`z`, every other character is kept.  It agrees
with Go on ASCII text only; `ToLowerBy` below covers every text. -/
def ToLower (s : Str) : Str := s.map Char.toLower

/-- Model of `strings.EqualFold` on ASCII text: equality up to the case of
the letters `A`-`Z`.  It agrees with Go on ASCII text only; `EqualFoldBy`
below covers every text. -/
def EqualFold (s t : Str) : Bool := ToLower s == ToLower t

/-- Model of `strings.HasSuffix(s, suffix)`. -/
def HasSuffix (s suffix : Str) : Bool := suffix.isSuffixOf s

/-- The scan of `strings.ReplaceAll` for a non-empty pattern: `skip` counts
the characters of the current match that are still to be dropped. -/
def replaceScan (old new : Str) : Nat → Str → Str
  | _, [] => []
  | skip + 1, _ :: cs => replaceScan old new skip cs
  | 0, c :: cs =>
    if old.isPrefixOf (c :: cs) then new ++ replaceScan old new (old.length - 1) cs
    else c :: replaceScan old new 0 cs

/-- Model of `strings.ReplaceAll(s, old, new)`: the non-overlapping
occurrences of `old` are replaced from left to right; an empty `old`
matches before every character and at the end. -/
def ReplaceAll (s old new : Str) : Str :=
  if old = [] then new ++ s.flatMap (fun c => c :: new)
  else replaceScan old new 0 s

end strings

/-! ## Package `config` -/

namespace config

/-- Go struct `config.CloudflareConfig`. -/
structure CloudflareConfig where
  APIToken : Str
  deriving DecidableEq, Repr

/-- Go struct `config.DNSRecord`: one desired record. -/
structure DNSRecord where
  Name : Str
  Type_ : Str
  Proxied : Bool
  TTL : Int
  deriving DecidableEq, Repr

/-- Go struct `config.GlobalConfig`. -/
structure GlobalConfig where
  CheckInterval : Int
  IPCheckURLs : List Str
  deriving DecidableEq, Repr

/-- Go struct `config.WebhookConfig`. -/
structure WebhookConfig where
  Enabled : Bool
  Type_ : Str
  URL : Str
  ChatID : Str
  Template : Str
  OnSuccess : Bool
  OnFailure : Bool
  deriving DecidableEq, Repr

/-- Go struct `config.Config`; `LastModified` is an instant, as a number. -/
structure Config where
  Global : GlobalConfig
  Cloudflare : CloudflareConfig
  DNSRecords : List DNSRecord
  Webhook : WebhookConfig
  ConfigPath : Str
  LastModified : Int
  deriving DecidableEq, Repr

/-- What the configuration loader reads from outside the process: the file
system, the YAML decoder and the environment.  `getenv` is the environment
as `os.Getenv` sees it after `loadDotEnv` has run (an unset variable reads
as the empty string). -/
structure Host where
  readFile : Str → Except Str Str
  yamlUnmarshal : Str → Except Str Config
  stat : Str → Except Str Int
  getenv : Str → Str

/-- The three errors of `LoadConfig`. -/
inductive LoadError where
  /-- The call `os.ReadFile` failed. -/
  | readFailed (err : Str)
  /-- The call `yaml.Unmarshal` failed. -/
  | parseFailed (err : Str)
  /-- The call `os.Stat` failed. -/
  | statFailed (err : Str)
  deriving DecidableEq, Repr

/-- Source method `Config.loadFromEnv`, after its call of `loadDotEnv`. -/
def Config.loadFromEnv (c : Config) (h : Host) : Config :=
  let c : Config := if h.getenv "CF_API_TOKEN".toList ≠ [] then
      { c with Cloudflare := { c.Cloudflare with APIToken := h.getenv "CF_API_TOKEN".toList } }
    else c
  let c : Config := if h.getenv "WEBHOOK_URL".toList ≠ [] then
      { c with Webhook := { c.Webhook with URL := h.getenv "WEBHOOK_URL".toList } }
    else c
  let c : Config := if h.getenv "WEBHOOK_CHAT_ID".toList ≠ [] then
      { c with Webhook := { c.Webhook with ChatID := h.getenv "WEBHOOK_CHAT_ID".toList } }
    else c
  if c.Webhook.URL ≠ [] ∧ c.Webhook.Enabled = false then
    if h.getenv "WEBHOOK_URL".toList ≠ [] then
      { c with Webhook := { c.Webhook with Enabled := true } }
    else c
  else c

/-- Source function `LoadConfig`. -/
def LoadConfig (h : Host) (path : Str) : Except LoadError Config :=
  match h.readFile path with
  | .error err => .error (.readFailed err)
  | .ok data =>
    match h.yamlUnmarshal data with
    | .error err => .error (.parseFailed err)
    | .ok cfg =>
      match h.stat path with
      | .error err => .error (.statFailed err)
      | .ok modTime =>
        let cfg : Config := { cfg with ConfigPath := path, LastModified := modTime }
        let cfg : Config := if cfg.Global.CheckInterval = 0 then
            { cfg with Global := { cfg.Global with CheckInterval := 300 } }
          else cfg
        let cfg : Config := if cfg.Global.IPCheckURLs.length = 0 then
            { cfg with Global := { cfg.Global with IPCheckURLs :=
                [ "https://api.ipify.org".toList, "https://icanhazip.com".toList,
                  "https://ident.me".toList, "https://4.ipw.cn".toList ] } }
          else cfg
        let cfg : Config := if cfg.Webhook.Template = [] then
            { cfg with Webhook := { cfg.Webhook with Template := "text".toList } }
          else cfg
        .ok (cfg.loadFromEnv h)

/-- The verb `%d` of `fmt.Sprintf` on an integer. -/
def formatInt (n : Int) : Str := (toString n).toList

/-- The line `Validate` adds for a record whose TTL is out of range. -/
def ttlMessage (record : DNSRecord) : Str :=
  "   記錄 ".toList ++ record.Name ++ " 的 TTL 值無效: ".toList ++ formatInt record.TTL ++
    " (必須為 1=自動 或 60-86400 秒)\n".toList

/-- Source method `Config.Validate`.  The result is `none` for a `nil`
error and `some msg` for the error built from the accumulated text `msg`. -/
def Config.Validate (c : Config) : Option Str :=
  let msg : Str := []
  let msg := if c.Cloudflare.APIToken = [] then
      msg ++ "   Cloudflare API Token 未設置\n".toList
    else msg
  let msg := if c.DNSRecords.length = 0 then
      msg ++ "   未配置任何 DNS 記錄\n".toList
    else msg
  let msg := c.DNSRecords.foldl (fun msg record =>
      if record.TTL ≠ 1 ∧ (record.TTL < 60 ∨ record.TTL > 86400) then
        msg ++ ttlMessage record
      else msg) msg
  let msg := if c.Webhook.Enabled then
      let msg := if c.Webhook.URL = [] then
          msg ++ "   Webhook 已啟用但未設置 URL\n".toList
        else msg
      if c.Webhook.Type_ = "telegram".toList ∧ c.Webhook.ChatID = [] then
        msg ++ "   Telegram Webhook 需要設置 Chat ID\n".toList
      else msg
    else msg
  if msg ≠ [] then some msg else none

/-- Source function `GetDefaultConfigPath`. -/
def GetDefaultConfigPath (h : Host) : Str :=
  match h.stat "config.yaml".toList with
  | .ok _ => "config.yaml".toList
  | .error _ =>
    match h.stat "/etc/cfddns/config.yaml".toList with
    | .ok _ => "/etc/cfddns/config.yaml".toList
    | .error _ => "config.yaml".toList

end config

/-! ## Package `cmd` -/

namespace cmd

/-- Source function `getConfigPath`; `cfgFile` is the `--config` flag. -/
def getConfigPath (h : config.Host) (cfgFile : Str) : Str :=
  if cfgFile ≠ [] then cfgFile else config.GetDefaultConfigPath h

/-- Source function `getConfig`: the lines it prints and its return value.
A validation failure only prints a warning, and only in verbose mode. -/
def getConfig (h : config.Host) (cfgFile : Str) (verbose : Bool) :
    List Str × Except config.LoadError config.Config :=
  match config.LoadConfig h (getConfigPath h cfgFile) with
  | .error err => ([], .error err)
  | .ok cfg =>
    match cfg.Validate with
    | some err =>
      if verbose then (["⚠️  配置驗證警告: ".toList ++ err ++ "\n".toList], .ok cfg)
      else ([], .ok cfg)
    | none => ([], .ok cfg)

/-- How the `run` command ends up: `log.Fatalf` on a configuration error,
or the service built from the configuration and started. -/
inductive RunOutcome where
  /-- First branch: `log.Fatalf`, the process exits with status 1. -/
  | fatal (err : config.LoadError)
  /-- Otherwise `service.NewDDNSService(cfg)` is built and `Start` called. -/
  | serviceStarted (cfg : config.Config)
  deriving DecidableEq, Repr

/-- Source command `runCmd`, up to the call of `ddnsService.Start()`. -/
def runCmd (h : config.Host) (cfgFile : Str) (verbose : Bool) : RunOutcome :=
  match (getConfig h cfgFile verbose).2 with
  | .error err => .fatal err
  | .ok cfg => .serviceStarted cfg

end cmd

/-! ## Package `cloudflare` -/

namespace cloudflare

/-- Go struct `cloudflare.Zone`. -/
structure Zone where
  ID : Str
  Name : Str
  Status : Str
  deriving DecidableEq, Repr

/-- Go struct `cloudflare.APIError`. -/
structure APIError where
  Code : Int
  Message : Str
  deriving DecidableEq, Repr

/-- Go struct `cloudflare.APIResponse`, the decoded envelope of an update. -/
structure APIResponse where
  Success : Bool
  Errors : List APIError
  deriving DecidableEq, Repr

/-- Go struct `cloudflare.UpdateRecordRequest`, the body of the PUT. -/
structure UpdateRecordRequest where
  Type_ : Str
  Name : Str
  Content : Str
  Proxied : Bool
  TTL : Int
  deriving DecidableEq, Repr

/-- The errors the client operations return, one constructor for each
`fmt.Errorf` of `client.go` that the embedded operations can reach. -/
inductive ClientError where
  /-- The record name gives no zone name (`AutoDiscoverZoneID`). -/
  | extractFailed (dnsRecordName : Str)
  /-- Listing the zones failed; wraps the error of `GetZones`. -/
  | getZonesFailed (err : ClientError)
  /-- No zone matches; carries the target name and `getZoneNames zones`. -/
  | zoneNotFound (targetZoneName : Str) (zoneNames : List Str)
  /-- The HTTP client returned an error. -/
  | network (err : Str)
  /-- Reading the response body failed. -/
  | readBody (err : Str)
  /-- The response body is not the expected JSON. -/
  | parseJSON (err : Str)
  /-- The envelope has `success=false`; `errors` is its error list. -/
  | api (errors : List APIError)
  /-- The update envelope has `success=false` and a first error entry. -/
  | updateFailed (message : Str)
  /-- The envelope has `success=false` and an empty error list. -/
  | apiCallFailed
  /-- `GetZones`: `success=false`, empty error list; carries the status. -/
  | zonesCallFailed (status : Int)
  /-- `GetDNSRecord`: `success=false` and an empty error list. -/
  | recordCallFailed
  /-- `GetDNSRecord`: the envelope is successful but has no record. -/
  | recordNotFound (recordName : Str)
  /-- `TestConnection`: `success=false`; `errors` is the error list. -/
  | tokenInvalid (errors : List APIError)
  /-- `TestConnection`: `success=false` and an empty error list. -/
  | tokenVerifyFailed
  deriving DecidableEq, Repr

/-- What the client observes of one HTTP round trip. -/
inductive HttpResult where
  /-- The call `client.Do` returned an error. -/
  | doFailed (err : Str)
  /-- The call `io.ReadAll` on the response body returned an error. -/
  | readFailed (err : Str)
  /-- A response with its status code and body. -/
  | response (status : Int) (body : Str)
  deriving DecidableEq, Repr

/-- The PUT request of `UpdateDNSRecord`: its URL and its JSON body before
marshalling. -/
structure PutRequest where
  url : Str
  body : UpdateRecordRequest
  deriving DecidableEq, Repr

/-- Source function `extractZoneNameFromDNS`: the last two dot-separated
parts of the name, or the name itself when it has no dot. -/
def extractZoneNameFromDNS (dnsName : Str) : Str :=
  let parts := strings.Split dnsName '.'
  if parts.length ≥ 2 then
    parts.getD (parts.length - 2) [] ++ ".".toList ++ parts.getD (parts.length - 1) []
  else dnsName

/-- Source function `getZoneNames`: the loop appends each zone name. -/
def getZoneNames (zones : List Zone) : List Str :=
  zones.foldl (fun names zone => names ++ [zone.Name]) []

/-- First loop of `AutoDiscoverZoneID`: the first zone, in listing order,
whose name equals the target under `strings.EqualFold`. -/
def matchExact (targetZoneName : Str) : List Zone → Option Zone
  | [] => none
  | zone :: rest =>
    if strings.EqualFold zone.Name targetZoneName then some zone
    else matchExact targetZoneName rest

/-- Second loop of `AutoDiscoverZoneID`: the first zone, in listing order,
for which the lower-cased record name ends with the lower-cased
`"." + zone.Name`. -/
def matchSuffix (dnsRecordName : Str) : List Zone → Option Zone
  | [] => none
  | zone :: rest =>
    if strings.HasSuffix (strings.ToLower dnsRecordName)
        (strings.ToLower (".".toList ++ zone.Name)) then some zone
    else matchSuffix dnsRecordName rest

/-- Source method `AutoDiscoverZoneID`; `getZones` is the result of the call
`c.GetZones()`, which is made only after the target name was extracted. -/
def AutoDiscoverZoneID (getZones : Except ClientError (List Zone))
    (dnsRecordName : Str) : Except ClientError Str :=
  let targetZoneName := extractZoneNameFromDNS dnsRecordName
  if targetZoneName = [] then
    .error (.extractFailed dnsRecordName)
  else
    match getZones with
    | .error err => .error (.getZonesFailed err)
    | .ok zones =>
      let matchedZone :=
        match matchExact targetZoneName zones with
        | some zone => some zone
        | none => matchSuffix dnsRecordName zones
      match matchedZone with
      | none => .error (.zoneNotFound targetZoneName (getZoneNames zones))
      | some zone => .ok zone.ID

/-- The TTL normalisation inside `UpdateDNSRecord` (the local variable
`ttl`, lines 328-338). -/
def updateTTL (recordTTL : Int) : Int :=
  let ttl := recordTTL
  if ttl = 1 then 1
  else if ttl < 60 then 60
  else if ttl > 86400 then 86400
  else ttl

/-- The struct literal `updateReq` of `UpdateDNSRecord`. -/
def updateReq (record : config.DNSRecord) (ip : Str) : UpdateRecordRequest :=
  { Type_ := record.Type_
    Name := record.Name
    Content := ip
    Proxied := record.Proxied
    TTL := updateTTL record.TTL }

/-- The URL of the PUT request. -/
def updateURL (zoneID recordID : Str) : Str :=
  "https://api.cloudflare.com/client/v4/zones/".toList ++ zoneID ++
    "/dns_records/".toList ++ recordID

/-- Source method `UpdateDNSRecord`.  `getZones` is the result of the zone
listing, `transport` the HTTP round trip and `unmarshal` the JSON decoding
of the response body.  Returns the PUT requests issued and the Go return
value (`Except.ok ()` for `nil`). -/
def UpdateDNSRecord (getZones : Except ClientError (List Zone))
    (transport : PutRequest → HttpResult)
    (unmarshal : Str → Except Str APIResponse)
    (recordID : Str) (record : config.DNSRecord) (ip : Str) :
    List PutRequest × Except ClientError Unit :=
  match AutoDiscoverZoneID getZones record.Name with
  | .error err => ([], .error err)
  | .ok zoneID =>
    let req : PutRequest := { url := updateURL zoneID recordID, body := updateReq record ip }
    match transport req with
    | .doFailed err => ([req], .error (.network err))
    | .readFailed err => ([req], .error (.readBody err))
    | .response _ body =>
      match unmarshal body with
      | .error err => ([req], .error (.parseJSON err))
      | .ok result =>
        if !result.Success then
          match result.Errors with
          | first :: _ => ([req], .error (.updateFailed first.Message))
          | [] => ([req], .error .apiCallFailed)
        else ([req], .ok ())

end cloudflare

/-! ## Package `webhook` -/

namespace webhook

/-- Go struct `webhook.WebhookMessage`; `Timestamp` is an instant, kept as
the text it marshals to. -/
structure WebhookMessage where
  Title : Str
  Message : Str
  Timestamp : Str
  Level : Str
  IPAddress : Str
  RecordName : Str
  deriving DecidableEq, Repr

/-- Go struct `webhook.TelegramMessage`. -/
structure TelegramMessage where
  ChatID : Str
  Text : Str
  ParseMode : Str
  deriving DecidableEq, Repr

/-- Go struct `webhook.WebhookClient`, without its HTTP client. -/
structure WebhookClient where
  url : Str
  chatID : Str
  enabled : Bool
  hookType : Str
  template : Str
  onSuccess : Bool
  onFailure : Bool
  deriving DecidableEq, Repr

/-- The value handed to `json.Marshal` for the body of a POST. -/
inductive Payload where
  /-- Generic mode: a `WebhookMessage`. -/
  | generic (msg : WebhookMessage)
  /-- Telegram mode: a `TelegramMessage`. -/
  | telegram (msg : TelegramMessage)
  deriving DecidableEq, Repr

/-- One call `w.client.Post(w.url, "application/json", body)`. -/
structure PostRequest where
  url : Str
  payload : Payload
  deriving DecidableEq, Repr

/-- What the notifier observes of one POST. -/
inductive PostResult where
  /-- The call `client.Post` returned an error. -/
  | failed (err : Str)
  /-- A response with its status code and body. -/
  | response (status : Int) (body : Str)
  deriving DecidableEq, Repr

/-- The errors the send operations return. -/
inductive SendError where
  /-- The error of `client.Post`, returned as it is. -/
  | transport (err : Str)
  /-- Generic mode, status of 400 or more: the text carries the status. -/
  | genericStatus (status : Int)
  /-- Telegram mode, status of 400 or more: status and response body. -/
  | telegramStatus (status : Int) (body : Str)
  deriving DecidableEq, Repr

/-- What the notifier reads from outside the process: `now` is
`time.Now().Format("2006-01-02 15:04:05")` when the details are built,
`timestamp` is `time.Now()` when the generic message is built, `post` is
the HTTP round trip. -/
structure Env where
  now : Str
  timestamp : Str
  post : PostRequest → PostResult

/-- The slice `chars` of `escapeMarkdown`, in source order. -/
def escapeMarkdownChars : List Str :=
  ["_", "*", "[", "]", "(", ")", "~", "`", ">", "#", "+", "-", "=", "|",
    "\x7b", "\x7d", ".", "!"].map String.toList

/-- Source function `escapeMarkdown`: one `strings.ReplaceAll` pass for each
entry of `chars`, in order. -/
def escapeMarkdown (text : Str) : Str :=
  escapeMarkdownChars.foldl
    (fun text char => strings.ReplaceAll text char ("\\".toList ++ char)) text

/-- Source function `escapeHTML`: three `strings.ReplaceAll` passes. -/
def escapeHTML (text : Str) : Str :=
  let text := strings.ReplaceAll text "&".toList "&amp;".toList
  let text := strings.ReplaceAll text "<".toList "&lt;".toList
  let text := strings.ReplaceAll text ">".toList "&gt;".toList
  text

/-- The `TelegramMessage` built by `sendTelegramMessage` (the `switch` on
the template and the struct literal `tgMessage`). -/
def WebhookClient.tgMessage (w : WebhookClient) (title message details : Str) :
    TelegramMessage :=
  let (text, parseMode) : Str × Str :=
    if w.template = "html".toList then
      ("<b>".toList ++ escapeHTML title ++ "</b>\n".toList ++ escapeHTML message ++
          "\n\n<pre>".toList ++ escapeHTML details ++ "</pre>".toList,
        "HTML".toList)
    else if w.template = "markdown".toList ∨ w.template = "markdownv2".toList then
      ("*".toList ++ escapeMarkdown title ++ "*\n".toList ++ escapeMarkdown message ++
          "\n\n```\n".toList ++ escapeMarkdown details ++ "\n```".toList,
        "MarkdownV2".toList)
    else
      (title ++ "\n".toList ++ message ++ "\n\n".toList ++ details, [])
  { ChatID := w.chatID, Text := text, ParseMode := parseMode }

/-- Source method `sendTelegramMessage`: the POSTs issued and the returned
error (`none` for `nil`).  The parameter `level` is not used by the code. -/
def WebhookClient.sendTelegramMessage (w : WebhookClient) (env : Env)
    (title message details _level : Str) : List PostRequest × Option SendError :=
  let req : PostRequest := { url := w.url, payload := .telegram (w.tgMessage title message details) }
  match env.post req with
  | .failed err => ([req], some (.transport err))
  | .response status body =>
    if status ≥ 400 then ([req], some (.telegramStatus status body))
    else ([req], none)

/-- Source method `sendGenericMessage`. -/
def WebhookClient.sendGenericMessage (w : WebhookClient) (env : Env)
    (title message details level : Str) : List PostRequest × Option SendError :=
  let webhookMsg : WebhookMessage :=
    { Title := title
      Message := message ++ "\n".toList ++ details
      Timestamp := env.timestamp
      Level := level
      IPAddress := []
      RecordName := [] }
  let req : PostRequest := { url := w.url, payload := .generic webhookMsg }
  match env.post req with
  | .failed err => ([req], some (.transport err))
  | .response status _ =>
    if status ≥ 400 then ([req], some (.genericStatus status))
    else ([req], none)

/-- Source method `sendMessage`: the switch on the hook type. -/
def WebhookClient.sendMessage (w : WebhookClient) (env : Env)
    (title message details level : Str) : List PostRequest × Option SendError :=
  if w.hookType = "telegram".toList then w.sendTelegramMessage env title message details level
  else w.sendGenericMessage env title message details level

/-- Source method `SendSuccess`. -/
def WebhookClient.SendSuccess (w : WebhookClient) (env : Env) (DNSip ip recordName : Str) :
    List PostRequest × Option SendError :=
  if !w.enabled || !w.onSuccess then ([], none)
  else
    let title := "✅ DDNS 更新成功".toList
    let message := "DNS 記錄 ".toList ++ recordName ++ " 發生變化".toList
    let details := DNSip ++ " → ".toList ++ ip ++ "\n時間: ".toList ++ env.now
    w.sendMessage env title message details "success".toList

/-- Source method `SendFailure`. -/
def WebhookClient.SendFailure (w : WebhookClient) (env : Env) (recordName errorMsg : Str) :
    List PostRequest × Option SendError :=
  if !w.enabled || !w.onFailure then ([], none)
  else
    let title := "❌ DDNS 更新失敗".toList
    let message := "更新 DNS 記錄 ".toList ++ recordName ++ " 時發生錯誤".toList
    let details := "記錄名稱: ".toList ++ recordName ++ "\n錯誤信息: ".toList ++ errorMsg ++
      "\n時間: ".toList ++ env.now
    w.sendMessage env title message details "error".toList

/-- Source method `SendInfo`. -/
def WebhookClient.SendInfo (w : WebhookClient) (env : Env) (customMessage : Str) :
    List PostRequest × Option SendError :=
  if !w.enabled then ([], none)
  else
    let title := "ℹ️ DDNS 信息".toList
    let message := customMessage
    let details := "時間: ".toList ++ env.now
    w.sendMessage env title message details "info".toList

/-- Source method `SendCustom`. -/
def WebhookClient.SendCustom (w : WebhookClient) (env : Env) (title message level : Str) :
    List PostRequest × Option SendError :=
  if !w.enabled then ([], none)
  else
    let details := "時間: ".toList ++ env.now
    w.sendMessage env title message details level

/-- Source method `SendTest`. -/
def WebhookClient.SendTest (w : WebhookClient) (env : Env) :
    List PostRequest × Option SendError :=
  if !w.enabled then ([], none)
  else
    let title := "🧪 DDNS 測試通知".toList
    let message := "這是一條測試訊息，用於驗證 Webhook 配置是否正確".toList
    let details := "服務: Cloudflare DDNS\n類型: ".toList ++ w.hookType ++ "\n時間: ".toList ++ env.now
    w.sendMessage env title message details "info".toList

end webhook

/-! ## The notions the specification uses, written from its words -/

namespace spec

/-- The last two labels of a name, joined by a dot (all the labels when
there are fewer than two): the candidate apex of the specification. -/
def lastTwoLabels (name : Str) : Str :=
  let labels := strings.Split name '.'
  ".".toList.intercalate (labels.drop (labels.length - 2))

/-- Case-insensitive equality of two names. -/
def CaseInsensitiveEq (a b : Str) : Prop :=
  strings.ToLower a = strings.ToLower b

/-- The apex is a dot-bounded, case-insensitive suffix of the name: up to
case, the name ends with a dot followed by the apex. -/
def DotBoundedSuffix (apex name : Str) : Prop :=
  ∃ front : Str, strings.ToLower name = front ++ '.' :: strings.ToLower apex

/-- The zone `z` is a most-specific match for the name among `zones`: its
apex is a dot-bounded suffix of the name and no zone of the list with that
property has a longer apex. -/
def IsLongestSuffixZone (zones : List cloudflare.Zone) (name : Str)
    (z : cloudflare.Zone) : Prop :=
  z ∈ zones ∧ DotBoundedSuffix z.Name name ∧
    ∀ z2 ∈ zones, DotBoundedSuffix z2.Name name → z2.Name.length ≤ z.Name.length

/-- The 18 characters MarkdownV2 requires to be escaped. -/
def markdownSpecials : List Char :=
  ['_', '*', '[', ']', '(', ')', '~', '\x60', '>', '#', '+', '-', '=', '|',
    '\x7b', '\x7d', '.', '!']

/-- Escaping for MarkdownV2 in one pass from left to right: a backslash is
put in front of every special character, the rest is kept. -/
def escapeMarkdownOnePass (text : Str) : Str :=
  text.flatMap (fun c => if c ∈ markdownSpecials then ['\\', c] else [c])

/-- Escaping for HTML in one pass from left to right. -/
def escapeHTMLOnePass (text : Str) : Str :=
  text.flatMap (fun c =>
    if c = '&' then "&amp;".toList
    else if c = '<' then "&lt;".toList
    else if c = '>' then "&gt;".toList
    else [c])

/-- The length of the maximal run of consecutive backslashes that ends the
text `front`, that is, that stands directly before what follows `front`. -/
def backslashRunBefore (front : Str) : Nat :=
  (front.reverse.takeWhile (fun c => c = '\\')).length

/-- In MarkdownV2 the character after `front` is escaped when the maximal
run of backslashes directly before it has odd length: the backslashes pair
up from the left, and only an unpaired last one escapes the character. -/
def EscapedAfter (front : Str) : Prop :=
  backslashRunBefore front % 2 = 1

/-- The TTL values the provider accepts: 1, or 60 to 86400. -/
def ValidTTL (ttl : Int) : Prop :=
  ttl = 1 ∨ (60 ≤ ttl ∧ ttl ≤ 86400)

end spec

/-! ## Further functions of Go's `strings` package -/

namespace strings

/-- Model of `unicode.IsSpace`: the characters `strings.TrimSpace` removes. -/
def isSpace (c : Char) : Bool :=
  let n := c.toNat
  (9 ≤ n ∧ n ≤ 13) ∨ n = 32 ∨ n = 0x85 ∨ n = 0xA0 ∨ n = 0x1680 ∨
    (0x2000 ≤ n ∧ n ≤ 0x200A) ∨ n = 0x2028 ∨ n = 0x2029 ∨ n = 0x202F ∨
    n = 0x205F ∨ n = 0x3000

/-- Model of `strings.TrimSpace`: the leading and the trailing white space
is removed. -/
def TrimSpace (s : Str) : Str :=
  ((s.dropWhile isSpace).reverse.dropWhile isSpace).reverse

/-- Model of `strings.HasPrefix(s, prefix)`. -/
def HasPrefix (s pre : Str) : Bool := pre.isPrefixOf s

/-- Model of `strings.SplitN(s, sep, n)` for a one-character separator and
`n ≥ 0`: at most `n` pieces, the last one being the unsplit rest. -/
def SplitN : Str → Char → Nat → List Str
  | _, _, 0 => []
  | s, _, 1 => [s]
  | [], _, _ + 2 => [[]]
  | c :: cs, sep, n + 2 =>
    if c = sep then [] :: SplitN cs sep (n + 1)
    else
      match SplitN cs sep (n + 2) with
      | [] => [[c]]
      | p :: ps => (c :: p) :: ps

end strings

/-! ## The `.env` format, written from the words of the specification -/

namespace spec

/-- One pair of surrounding quotes is removed when the value has at least
two characters and starts and ends with the same quote character, single or
double; any other value is kept. -/
def unquote (value : Str) : Str :=
  if 2 ≤ value.length ∧
      [Char.ofNat 34, Char.ofNat 39].any
        (fun q => value.head? = some q ∧ value.getLast? = some q) = true then
    value.tail.dropLast
  else value

/-- The binding one line of a `.env` file sets: none for a line that is
blank or starts with `#` after trimming, none for a line without `=`,
otherwise the trimmed text before the first `=` as key and the trimmed and
unquoted text after it as value. -/
def dotEnvBinding (line : Str) : Option (Str × Str) :=
  let trimmed := strings.TrimSpace line
  if trimmed = [] then none
  else if trimmed.head? = some '#' then none
  else if '=' ∉ trimmed then none
  else
    some (strings.TrimSpace (trimmed.takeWhile (fun c => c ≠ '=')),
      unquote (strings.TrimSpace ((trimmed.dropWhile (fun c => c ≠ '=')).drop 1)))

/-- The bindings a `.env` file sets, line by line in order. -/
def dotEnvBindings (content : Str) : List (Str × Str) :=
  (strings.Split content '\n').filterMap dotEnvBinding

end spec

/-! ## Package `cloudflare`: reading operations and error texts -/

namespace cloudflare

/-- Go struct `cloudflare.ZoneResponse`. -/
structure ZoneResponse where
  Result : List Zone
  Success : Bool
  Errors : List APIError
  deriving DecidableEq, Repr

/-- Go struct `cloudflare.DNSRecord`: a record as the provider reports it. -/
structure DNSRecord where
  ID : Str
  Name : Str
  Type_ : Str
  Content : Str
  Proxied : Bool
  TTL : Int
  ZoneID : Str
  ZoneName : Str
  deriving DecidableEq, Repr

/-- Go struct `cloudflare.DNSRecordResponse`. -/
structure DNSRecordResponse where
  Result : List DNSRecord
  Success : Bool
  Errors : List APIError
  deriving DecidableEq, Repr

/-- The anonymous struct `Result` of `cloudflare.TokenVerifyResponse`. -/
structure TokenVerifyResult where
  ID : Str
  Status : Str
  Email : Str
  deriving DecidableEq, Repr

/-- Go struct `cloudflare.TokenVerifyResponse`. -/
structure TokenVerifyResponse where
  Success : Bool
  Result : TokenVerifyResult
  Errors : List APIError
  deriving DecidableEq, Repr

/-- The verb `%v` of `fmt` on one `APIError`: code and message in braces. -/
def formatError (e : APIError) : Str :=
  "\x7b".toList ++ config.formatInt e.Code ++ " ".toList ++ e.Message ++ "\x7d".toList

/-- The verb `%v` of `fmt` on a slice: the entries, separated by a blank,
in square brackets. -/
def formatSlice (entries : List Str) : Str :=
  "[".toList ++ " ".toList.intercalate entries ++ "]".toList

/-- The verb `%v` of `fmt` on the error list of an envelope. -/
def formatErrors (errors : List APIError) : Str :=
  formatSlice (errors.map formatError)

/-- The text of each error, as the `fmt.Errorf` call that builds it
writes it (`%w` inserts the text of the wrapped error). -/
def ClientError.text : ClientError → Str
  | .extractFailed dnsRecordName => "無法從記錄名稱中提取域名: ".toList ++ dnsRecordName
  | .getZonesFailed err => "獲取區域列錶失敗: ".toList ++ err.text
  | .zoneNotFound targetZoneName zoneNames =>
    "未找到域名 ".toList ++ targetZoneName ++ " 對應的區域，可用區域: ".toList ++
      formatSlice zoneNames
  | .network err => "網絡請求失敗: ".toList ++ err
  | .readBody err => "讀取響應失敗: ".toList ++ err
  | .parseJSON err => "解析 JSON 失敗: ".toList ++ err
  | .api errors => "API 錯誤: ".toList ++ formatErrors errors
  | .updateFailed message => "Cloudflare API錯誤: ".toList ++ message
  | .apiCallFailed => "Cloudflare API調用失敗".toList
  | .zonesCallFailed status => "API 調用失敗，狀態碼: ".toList ++ config.formatInt status
  | .recordCallFailed => "API 調用失敗".toList
  | .recordNotFound recordName => "未找到DNS記錄: ".toList ++ recordName
  | .tokenInvalid errors => "Token 驗證失敗: ".toList ++ formatErrors errors
  | .tokenVerifyFailed => "Token 驗證失敗".toList

/-- Source method `GetZones`: `transport` is the round trip of the GET and
`unmarshal` the JSON decoding of the response body. -/
def GetZones (transport : HttpResult) (unmarshal : Str → Except Str ZoneResponse) :
    Except ClientError (List Zone) :=
  match transport with
  | .doFailed err => .error (.network err)
  | .readFailed err => .error (.readBody err)
  | .response status body =>
    match unmarshal body with
    | .error err => .error (.parseJSON err)
    | .ok result =>
      if !result.Success then
        if result.Errors.length > 0 then .error (.api result.Errors)
        else .error (.zonesCallFailed status)
      else .ok result.Result

/-- Source method `TestConnection`, up to its return value: the zone
listing made after a successful verification is only printed. -/
def TestConnection (transport : HttpResult)
    (unmarshal : Str → Except Str TokenVerifyResponse) : Except ClientError Unit :=
  match transport with
  | .doFailed err => .error (.network err)
  | .readFailed err => .error (.readBody err)
  | .response _ body =>
    match unmarshal body with
    | .error err => .error (.parseJSON err)
    | .ok result =>
      if !result.Success then
        if result.Errors.length > 0 then .error (.tokenInvalid result.Errors)
        else .error .tokenVerifyFailed
      else .ok ()

/-- The URL of the GET request of `GetDNSRecord`. -/
def recordURL (zoneID recordType recordName : Str) : Str :=
  "https://api.cloudflare.com/client/v4/zones/".toList ++ zoneID ++
    "/dns_records?type=".toList ++ recordType ++ "&name=".toList ++ recordName

/-- Source method `GetDNSRecord`: `getZones` is the result of the zone
listing, `transport` the round trip of the GET for a URL and `unmarshal` the
JSON decoding of the response body. -/
def GetDNSRecord (getZones : Except ClientError (List Zone))
    (transport : Str → HttpResult)
    (unmarshal : Str → Except Str DNSRecordResponse)
    (recordName recordType : Str) : Except ClientError DNSRecord :=
  match AutoDiscoverZoneID getZones recordName with
  | .error err => .error err
  | .ok zoneID =>
    match transport (recordURL zoneID recordType recordName) with
    | .doFailed err => .error (.network err)
    | .readFailed err => .error (.readBody err)
    | .response _ body =>
      match unmarshal body with
      | .error err => .error (.parseJSON err)
      | .ok result =>
        if !result.Success then
          if result.Errors.length > 0 then .error (.api result.Errors)
          else .error .recordCallFailed
        else
          match result.Result with
          | [] => .error (.recordNotFound recordName)
          | first :: _ => .ok first

end cloudflare

/-! ## Package `webhook`: error texts and the JSON body -/

namespace webhook

/-- The text of each error of the send operations, as the `fmt.Errorf`
call that builds it writes it; a transport error is returned as it is. -/
def SendError.text : SendError → Str
  | .transport err => err
  | .genericStatus status => "webhook 調用失敗，狀態碼: ".toList ++ config.formatInt status
  | .telegramStatus status body =>
    "Telegram API 調用失敗，狀態碼: ".toList ++ config.formatInt status ++
      ", 響應: ".toList ++ body

/-- The members `json.Marshal` writes for a `TelegramMessage`, as name and
string value, following the struct tags: `chat_id`, `text`, and
`parse_mode` with `omitempty`, which is left out when it is empty. -/
def TelegramMessage.jsonMembers (m : TelegramMessage) : List (Str × Str) :=
  [("chat_id".toList, m.ChatID), ("text".toList, m.Text)] ++
    (if m.ParseMode = [] then [] else [("parse_mode".toList, m.ParseMode)])

end webhook

/-! ## Package `config`: the `.env` file and reloading -/

namespace config

/-- The double quote character. -/
def doubleQuote : Char := Char.ofNat 34

/-- The single quote character. -/
def singleQuote : Char := Char.ofNat 39

/-- The body of the loop of `loadDotEnv` for one line: the call
`os.Setenv(key, value)` it makes, if any. -/
def dotEnvLine (line : Str) : Option (Str × Str) :=
  let line := strings.TrimSpace line
  if line = [] ∨ strings.HasPrefix line "#".toList = true then none
  else
    let parts := strings.SplitN line '=' 2
    if parts.length = 2 then
      let key := strings.TrimSpace (parts.getD 0 [])
      let value := strings.TrimSpace (parts.getD 1 [])
      let value :=
        if value.length > 1 ∧
            ((value.head? = some doubleQuote ∧ value.getLast? = some doubleQuote) ∨
             (value.head? = some singleQuote ∧ value.getLast? = some singleQuote)) then
          (value.drop 1).take (value.length - 2)
        else value
      some (key, value)
    else none

/-- The loop of `loadDotEnv` over the lines of the file content: the calls
`os.Setenv(key, value)` it makes, in order. -/
def dotEnvCalls (data : Str) : List (Str × Str) :=
  (strings.Split data '\n').foldl
    (fun calls line =>
      match dotEnvLine line with
      | some call => calls ++ [call]
      | none => calls) []

/-- Source method `Config.loadDotEnv`: the calls `os.Setenv(key, value)` it
makes, in order; none when `.env` does not exist or cannot be read. -/
def loadDotEnv (h : Host) : List (Str × Str) :=
  match h.stat ".env".toList with
  | .error _ => []
  | .ok _ =>
    match h.readFile ".env".toList with
    | .error _ => []
    | .ok data => dotEnvCalls data


/-- Source method `Config.Reload`: the configuration `*c` after the call and
the returned error (`none` for `nil`).  The new configuration is assigned
as soon as `LoadConfig` succeeds; `Validate` is not called. -/
def Config.Reload (c : Config) (h : Host) : Config × Option LoadError :=
  match LoadConfig h c.ConfigPath with
  | .error err => (c, some err)
  | .ok newConfig => (newConfig, none)

end config

/-! ## Zone discovery with the case tables of Go as a parameter

`strings.ToLower` and `strings.EqualFold` work rune by rune with the tables
of Go's `unicode` package, which cover every letter of Unicode.  The
definitions below take these tables as a parameter, so that what is proved
about them holds for every name; `strings.ToLower` and `strings.EqualFold`
above are the instance for the letters `A`-`Z`. -/

namespace strings

/-- The case tables of Go's `unicode` package: `lower` is
`unicode.ToLower` on one rune, and `foldEq a b` says that the runes `a` and
`b` are equal under simple case folding, the test `strings.EqualFold` makes
on each pair of runes. -/
structure CaseTable where
  lower : Char → Char
  foldEq : Char → Char → Bool

/-- The case table restricted to the letters `A`-`Z`. -/
def asciiTable : CaseTable :=
  { lower := Char.toLower
    foldEq := fun a b => a.toLower == b.toLower }

/-- Model of `strings.ToLower`: every rune is mapped by `unicode.ToLower`. -/
def ToLowerBy (T : CaseTable) (s : Str) : Str := s.map T.lower

/-- Model of `strings.EqualFold`: the two texts have the same number of
runes and the runes at each position are equal under simple case folding. -/
def EqualFoldBy (T : CaseTable) : Str → Str → Bool
  | [], [] => true
  | a :: s, b :: t => T.foldEq a b && EqualFoldBy T s t
  | _, _ => false

end strings

namespace cloudflare

/-- First loop of `AutoDiscoverZoneID`, with the case table as parameter:
the first zone, in listing order, whose name equals the target under
`strings.EqualFold`. -/
def matchExactBy (T : strings.CaseTable) (targetZoneName : Str) : List Zone → Option Zone
  | [] => none
  | zone :: rest =>
    if strings.EqualFoldBy T zone.Name targetZoneName then some zone
    else matchExactBy T targetZoneName rest

/-- Second loop of `AutoDiscoverZoneID`, with the case table as parameter:
the first zone, in listing order, for which the lower-cased record name
ends with the lower-cased `"." + zone.Name`. -/
def matchSuffixBy (T : strings.CaseTable) (dnsRecordName : Str) : List Zone → Option Zone
  | [] => none
  | zone :: rest =>
    if strings.HasSuffix (strings.ToLowerBy T dnsRecordName)
        (strings.ToLowerBy T (".".toList ++ zone.Name)) then some zone
    else matchSuffixBy T dnsRecordName rest

/-- Source method `AutoDiscoverZoneID`, with the case table as parameter;
`getZones` is the result of the call `c.GetZones()`, which is made only
after the target name was extracted. -/
def AutoDiscoverZoneIDBy (T : strings.CaseTable)
    (getZones : Except ClientError (List Zone)) (dnsRecordName : Str) :
    Except ClientError Str :=
  let targetZoneName := extractZoneNameFromDNS dnsRecordName
  if targetZoneName = [] then
    .error (.extractFailed dnsRecordName)
  else
    match getZones with
    | .error err => .error (.getZonesFailed err)
    | .ok zones =>
      let matchedZone :=
        match matchExactBy T targetZoneName zones with
        | some zone => some zone
        | none => matchSuffixBy T dnsRecordName zones
      match matchedZone with
      | none => .error (.zoneNotFound targetZoneName (getZoneNames zones))
      | some zone => .ok zone.ID

end cloudflare

namespace spec

/-- Case-insensitive equality of two names for a case table: the names
have the same length and agree, position by position, up to case. -/
def CaseInsensitiveEqBy (T : strings.CaseTable) (a b : Str) : Prop :=
  List.Forall₂ (fun x y => T.foldEq x y = true) a b

/-- The apex is a dot-bounded, case-insensitive suffix of the name for a
case table: the lower-cased name ends with a dot followed by the
lower-cased apex. -/
def DotBoundedSuffixBy (T : strings.CaseTable) (apex name : Str) : Prop :=
  ∃ front : Str, name.map T.lower = front ++ '.' :: apex.map T.lower

end spec

/-! ## Package `os` -/

namespace os

/-- The character with code 0. -/
def nul : Char := Char.ofNat 0

/-- Model of `os.Setenv(key, value)` on Unix: whether the call fails.  It
fails, and leaves the environment as it is, when the key is empty, when the
key contains `=` or a NUL byte, and when the value contains a NUL byte. -/
def setenvFails (key value : Str) : Bool :=
  key = [] ∨ '=' ∈ key ∨ nul ∈ key ∨ nul ∈ value

end os

namespace config

/-- The bindings `loadDotEnv` sets for a file content, in order: the calls
`os.Setenv(key, value)` of its loop that do not fail (the loop ignores the
error of a failing call). -/
def dotEnvSets (data : Str) : List (Str × Str) :=
  (dotEnvCalls data).filter (fun call => !os.setenvFails call.1 call.2)

/-- The bindings `Config.loadDotEnv` sets, in order; none when `.env` does
not exist or cannot be read. -/
def loadDotEnvSets (h : Host) : List (Str × Str) :=
  (loadDotEnv h).filter (fun call => !os.setenvFails call.1 call.2)

end config

namespace spec

/-- A binding can be set when its key is not empty and neither its key nor
its value contains a NUL byte. -/
def settable (binding : Str × Str) : Bool :=
  binding.1 ≠ [] ∧ os.nul ∉ binding.1 ∧ os.nul ∉ binding.2

end spec

/-! ## Package `service`: the reconciliation engine

The package `cfddns/service` is imported by `cmd/run.go` but is not among
the sources; its tick is written here from section 4 of the specification. -/

namespace service

/-- Modelled from the spec: the calls and notifications a tick of the
missing package `service` makes towards the provider client and the
notifier (sections 4.2 to 4.4). -/
inductive TickEvent where
  /-- A call `updateRecord` for a record identifier, the desired record and
  the new content. -/
  | updateRecord (recordID : Str) (desired : config.DNSRecord) (newContent : Str)
  /-- A `success` notification with the prior IP, the new IP and the name. -/
  | notifySuccess (oldIP newIP recordName : Str)
  /-- A `failure` notification with a record name (empty for the probe)
  and an error text. -/
  | notifyFailure (recordName errorMessage : Str)
  deriving DecidableEq, Repr

/-- Modelled from the spec: whether an event of a tick of the missing
package `service` is a call `updateRecord`. -/
def TickEvent.isUpdate : TickEvent → Bool
  | .updateRecord _ _ _ => true
  | _ => false

/-- Modelled from the spec: the IP Discovery Probe `discover()` of the
missing package `service` (section 4.1).  The endpoints are tried in order;
`fetch url` is the well-formed address the endpoint yields, or `none` for a
network failure, a status outside 2xx or a malformed body; the first
address obtained is returned, and the probe fails only when the whole list
is exhausted. -/
def discover (fetch : Str → Option Str) : List Str → Option Str
  | [] => none
  | url :: rest =>
    match fetch url with
    | some ip => some ip
    | none => discover fetch rest

/-- Modelled from the spec: step 2 of the per-tick algorithm of the missing
package `service` (section 4.4) for one desired record.  A read failure
emits `failure`; a record whose content equals the current IP and whose
proxied flag and TTL match (`ttlMatches` is the provider tolerance) is
unchanged; otherwise `updateRecord` is called with the discovered IP, and
`success` or `failure` is emitted with its outcome. -/
def reconcileRecord
    (findRecord : config.DNSRecord → Except cloudflare.ClientError cloudflare.DNSRecord)
    (updateRecord : Str → config.DNSRecord → Str → Except cloudflare.ClientError Unit)
    (ttlMatches : Int → Int → Bool) (currentIP : Str) (desired : config.DNSRecord) :
    List TickEvent :=
  match findRecord desired with
  | .error err => [.notifyFailure desired.Name err.text]
  | .ok observed =>
    if observed.Content = currentIP ∧ observed.Proxied = desired.Proxied ∧
        ttlMatches observed.TTL desired.TTL = true then []
    else
      match updateRecord observed.ID desired currentIP with
      | .ok _ =>
        [.updateRecord observed.ID desired currentIP,
         .notifySuccess observed.Content currentIP desired.Name]
      | .error err =>
        [.updateRecord observed.ID desired currentIP,
         .notifyFailure desired.Name err.text]

/-- Modelled from the spec: one reconciliation tick of the missing package
`service` (section 4.4, steps 1 and 2).  The probe is called first; when it
fails, one `failure` notification is emitted and the rest of the tick is
skipped; otherwise the desired records are processed in configuration
order. -/
def tick (fetch : Str → Option Str) (urls : List Str)
    (findRecord : config.DNSRecord → Except cloudflare.ClientError cloudflare.DNSRecord)
    (updateRecord : Str → config.DNSRecord → Str → Except cloudflare.ClientError Unit)
    (ttlMatches : Int → Int → Bool) (desired : List config.DNSRecord) : List TickEvent :=
  match discover fetch urls with
  | none => [.notifyFailure [] "IP discovery failed".toList]
  | some currentIP =>
    desired.flatMap (reconcileRecord findRecord updateRecord ttlMatches currentIP)

end service

end Cfddns

namespace Cfddns

/-! ## Concrete inputs used to exercise the theorems -/

namespace sample

/-- Two zones of one account: an apex and a sub-apex. -/
def zones : List cloudflare.Zone :=
  [ { ID := "id-example".toList, Name := "example.com".toList, Status := "active".toList },
    { ID := "id-sub".toList, Name := "sub.example.com".toList, Status := "active".toList } ]

/-- A desired record with the given TTL. -/
def record (ttl : Int) : config.DNSRecord :=
  { Name := "home.example.com".toList, Type_ := "A".toList, Proxied := false, TTL := ttl }

/-- A provider that answers every PUT with status 200. -/
def transport : cloudflare.PutRequest → cloudflare.HttpResult :=
  fun _ => .response 200 []

/-- A decoder that reads every body as a successful envelope. -/
def unmarshal : Str → Except Str cloudflare.APIResponse :=
  fun _ => .ok { Success := true, Errors := [] }

/-- The PUT expected for `record ttl` when `sent` is the transmitted TTL. -/
def put (sent : Int) : cloudflare.PutRequest :=
  { url := "https://api.cloudflare.com/client/v4/zones/id-example/dns_records/rec-1".toList
    body := { Type_ := "A".toList, Name := "home.example.com".toList,
              Content := "203.0.113.42".toList, Proxied := false, TTL := sent } }

/-- A configuration with a token, the webhook disabled and one record with
the given TTL. -/
def configWithTTL (ttl : Int) : config.Config :=
  { Global := { CheckInterval := 300, IPCheckURLs := [] }
    Cloudflare := { APIToken := "token".toList }
    DNSRecords := [record ttl]
    Webhook := { Enabled := false, Type_ := [], URL := [], ChatID := [], Template := "text".toList,
                 OnSuccess := false, OnFailure := false }
    ConfigPath := "config.yaml".toList
    LastModified := 0 }

/-- What the YAML decoder yields for an empty document: every field has its
zero value, so there is no API token and no DNS record. -/
def emptyDocument : config.Config :=
  { Global := { CheckInterval := 0, IPCheckURLs := [] }
    Cloudflare := { APIToken := [] }
    DNSRecords := []
    Webhook := { Enabled := false, Type_ := [], URL := [], ChatID := [], Template := [],
                 OnSuccess := false, OnFailure := false }
    ConfigPath := []
    LastModified := 0 }

/-- A host whose configuration file exists and is an empty document, with
none of the three environment variables set. -/
def emptyHost : config.Host :=
  { readFile := fun _ => .ok []
    yamlUnmarshal := fun _ => .ok emptyDocument
    stat := fun _ => .ok 0
    getenv := fun _ => [] }

/-- The configuration `LoadConfig` returns on `emptyHost`: the defaults are
filled in, the token and the records are still missing. -/
def emptyLoaded : config.Config :=
  { Global := { CheckInterval := 300,
                IPCheckURLs := [ "https://api.ipify.org".toList, "https://icanhazip.com".toList,
                  "https://ident.me".toList, "https://4.ipw.cn".toList ] }
    Cloudflare := { APIToken := [] }
    DNSRecords := []
    Webhook := { Enabled := false, Type_ := [], URL := [], ChatID := [], Template := "text".toList,
                 OnSuccess := false, OnFailure := false }
    ConfigPath := "config.yaml".toList
    LastModified := 0 }

/-- A host on which the configuration file cannot be read. -/
def unreadableHost : config.Host :=
  { readFile := fun _ => .error "no such file".toList
    yamlUnmarshal := fun _ => .ok emptyDocument
    stat := fun _ => .error "no such file".toList
    getenv := fun _ => [] }

/-- A notifier in telegram mode with the given template and filters. -/
def telegramClient (template : Str) (enabled onSuccess onFailure : Bool) :
    webhook.WebhookClient :=
  { url := "https://api.telegram.org/bot/sendMessage".toList
    chatID := "42".toList
    enabled := enabled
    hookType := "telegram".toList
    template := template
    onSuccess := onSuccess
    onFailure := onFailure }

/-- An endpoint that answers every POST with status 200, at a fixed time. -/
def env : webhook.Env :=
  { now := "2024-01-01 00:00:00".toList
    timestamp := "2024-01-01T00:00:00Z".toList
    post := fun _ => .response 200 [] }

/-- A provider error entry. -/
def tokenError : cloudflare.APIError :=
  { Code := 9109, Message := "Invalid access token".toList }

/-- A decoder that reads every body as a failed zone listing which still
carries a zone in its result field. -/
def failedZones : Str → Except Str cloudflare.ZoneResponse :=
  fun _ => .ok { Result := zones, Success := false, Errors := [tokenError] }

/-- A notifier in generic mode, enabled for every event. -/
def genericClient : webhook.WebhookClient :=
  { url := "https://hooks.example.com/ddns".toList
    chatID := []
    enabled := true
    hookType := "generic".toList
    template := "text".toList
    onSuccess := true
    onFailure := true }

/-- An endpoint that answers every POST with status 500 and a body. -/
def failingEnv : webhook.Env :=
  { now := "2024-01-01 00:00:00".toList
    timestamp := "2024-01-01T00:00:00Z".toList
    post := fun _ => .response 500 "quota exceeded".toList }

/-- One zone whose apex has three labels. -/
def ukZones : List cloudflare.Zone :=
  [ { ID := "id-uk".toList, Name := "example.co.uk".toList, Status := "active".toList } ]

/-- A parsed document that sets the check interval to the given value. -/
def documentWithInterval (interval : Int) : config.Config :=
  { emptyDocument with
    Global := { CheckInterval := interval, IPCheckURLs := [] }
    Cloudflare := { APIToken := "token".toList }
    DNSRecords := [record 300] }

/-- A host whose configuration file parses to `documentWithInterval`, with
the given environment. -/
def hostWithInterval (interval : Int) (getenv : Str → Str) : config.Host :=
  { readFile := fun _ => .ok []
    yamlUnmarshal := fun _ => .ok (documentWithInterval interval)
    stat := fun _ => .ok 0
    getenv := getenv }

/-- An environment in which only `WEBHOOK_URL` is set. -/
def webhookEnv : Str → Str :=
  fun name => if name = "WEBHOOK_URL".toList then "https://hooks.example.com/x".toList else []

/-- An environment in which no variable is set. -/
def noEnv : Str → Str :=
  fun _ => []

/-- A host whose `.env` file holds a token in double quotes, a comment and
a URL with a lone quote. -/
def dotEnvHost : config.Host :=
  { readFile := fun _ => .ok "CF_API_TOKEN = \x22abc\x22\n# note\nWEBHOOK_URL=\x27x".toList
    yamlUnmarshal := fun _ => .ok emptyDocument
    stat := fun _ => .ok 0
    getenv := fun _ => [] }

/-- A provider read that finds a record with a stale address. -/
def findStale : config.DNSRecord → Except cloudflare.ClientError cloudflare.DNSRecord :=
  fun desired => .ok
    { ID := "rec-1".toList, Name := desired.Name, Type_ := desired.Type_,
      Content := "198.51.100.7".toList, Proxied := desired.Proxied, TTL := desired.TTL,
      ZoneID := "id-example".toList, ZoneName := "example.com".toList }

/-- A provider write that always succeeds. -/
def updateOk : Str → config.DNSRecord → Str → Except cloudflare.ClientError Unit :=
  fun _ _ _ => .ok ()

/-- The four default echo endpoints. -/
def echoURLs : List Str :=
  [ "https://api.ipify.org".toList, "https://icanhazip.com".toList,
    "https://ident.me".toList, "https://4.ipw.cn".toList ]

/-- A host whose `.env` file holds a line with an empty key and a line
with a key. -/
def emptyKeyHost : config.Host :=
  { readFile := fun _ => .ok "=v\nA=1".toList
    yamlUnmarshal := fun _ => .ok emptyDocument
    stat := fun _ => .ok 0
    getenv := fun _ => [] }

end sample

end Cfddns

/-! ## Theorems -/

namespace Cfddns

open cloudflare in
/-- Whenever `UpdateDNSRecord` issues a request, it is the single PUT whose
body is `updateReq record ip`. -/
theorem UpdateDNSRecord_sent (getZones : Except ClientError (List Zone))
    (transport : PutRequest → HttpResult) (unmarshal : Str → Except Str APIResponse)
    (recordID : Str) (record : config.DNSRecord) (ip : Str) (req : PutRequest)
    (h : req ∈ (UpdateDNSRecord getZones transport unmarshal recordID record ip).1) :
    req.body = updateReq record ip := by
  unfold UpdateDNSRecord at h
  cases hz : AutoDiscoverZoneID getZones record.Name with
  | error e => simp [hz] at h
  | ok zoneID =>
    simp only [hz] at h
    cases ht : transport ⟨updateURL zoneID recordID, updateReq record ip⟩ with
    | doFailed err => simp [ht] at h; simp [h]
    | readFailed err => simp [ht] at h; simp [h]
    | response status body =>
      simp only [ht] at h
      cases hu : unmarshal body with
      | error err => simp [hu] at h; simp [h]
      | ok result =>
        simp only [hu] at h
        cases hs : result.Success with
        | true => simp [hs] at h; simp [h]
        | false =>
          cases he : result.Errors with
          | nil => simp [hs, he] at h; simp [h]
          | cons first rest => simp [hs, he] at h; simp [h]

open cloudflare in
/-- C1: the TTL in the body of every PUT issued by `UpdateDNSRecord` is 1
when the record's TTL is 1, 60 when it is below 60 and not 1, 86400 when it
is above 86400, and the record's TTL otherwise; the inputs 0, 1, 59, 60,
86400, 86401 are transmitted as 60, 1, 60, 60, 86400, 86400. -/
theorem C1_update_ttl_normalised (getZones : Except ClientError (List Zone))
    (transport : PutRequest → HttpResult) (unmarshal : Str → Except Str APIResponse)
    (recordID : Str) (record : config.DNSRecord) (ip : Str) (req : PutRequest)
    (h : req ∈ (UpdateDNSRecord getZones transport unmarshal recordID record ip).1) :
    (record.TTL = 1 → req.body.TTL = 1) ∧
    (record.TTL < 60 → record.TTL ≠ 1 → req.body.TTL = 60) ∧
    (record.TTL > 86400 → req.body.TTL = 86400) ∧
    (60 ≤ record.TTL → record.TTL ≤ 86400 → req.body.TTL = record.TTL) ∧
    (record.TTL = 0 → req.body.TTL = 60) ∧
    (record.TTL = 59 → req.body.TTL = 60) ∧
    (record.TTL = 60 → req.body.TTL = 60) ∧
    (record.TTL = 86400 → req.body.TTL = 86400) ∧
    (record.TTL = 86401 → req.body.TTL = 86400) := by
  have hb := UpdateDNSRecord_sent getZones transport unmarshal recordID record ip req h
  have ht : req.body.TTL = updateTTL record.TTL := by rw [hb]; rfl
  rw [ht]
  dsimp only [updateTTL]
  refine ⟨?_, ?_, ?_, ?_, ?_, ?_, ?_, ?_, ?_⟩ <;> intros <;> split_ifs <;> omega

set_option maxRecDepth 20000 in
open cloudflare in
/-- Witness for C1: with the zone `example.com` listed, the record
`home.example.com` with TTL 0 is sent in one PUT whose TTL is 60. -/
theorem C1_update_ttl_normalised_witness :
    sample.put 60 ∈ (UpdateDNSRecord (.ok sample.zones) sample.transport sample.unmarshal
        "rec-1".toList (sample.record 0) "203.0.113.42".toList).1 ∧
      (sample.put 60).body.TTL = 60 :=
  ⟨by decide,
   (C1_update_ttl_normalised (.ok sample.zones) sample.transport sample.unmarshal
      "rec-1".toList (sample.record 0) "203.0.113.42".toList (sample.put 60)
      (by decide)).2.2.2.2.1 rfl⟩

open cloudflare in
/-- C2: whatever integer the configured TTL of the desired record is (zero
and negative values included), the TTL in the body of every PUT issued by
`UpdateDNSRecord` is 1 or lies in the closed interval from 60 to 86400. -/
theorem C2_update_ttl_in_range (getZones : Except ClientError (List Zone))
    (transport : PutRequest → HttpResult) (unmarshal : Str → Except Str APIResponse)
    (recordID : Str) (record : config.DNSRecord) (ip : Str) (req : PutRequest)
    (h : req ∈ (UpdateDNSRecord getZones transport unmarshal recordID record ip).1) :
    req.body.TTL = 1 ∨ (60 ≤ req.body.TTL ∧ req.body.TTL ≤ 86400) := by
  have hb := UpdateDNSRecord_sent getZones transport unmarshal recordID record ip req h
  have ht : req.body.TTL = updateTTL record.TTL := by rw [hb]; rfl
  rw [ht]
  dsimp only [updateTTL]
  split_ifs <;> omega

set_option maxRecDepth 20000 in
open cloudflare in
/-- Witness for C2: a record with the negative TTL -5 is sent with TTL 60. -/
theorem C2_update_ttl_in_range_witness :
    sample.put 60 ∈ (UpdateDNSRecord (.ok sample.zones) sample.transport sample.unmarshal
        "rec-1".toList (sample.record (-5)) "203.0.113.42".toList).1 ∧
      ((sample.put 60).body.TTL = 1 ∨
        (60 ≤ (sample.put 60).body.TTL ∧ (sample.put 60).body.TTL ≤ 86400)) :=
  ⟨by decide,
   C2_update_ttl_in_range (.ok sample.zones) sample.transport sample.unmarshal
      "rec-1".toList (sample.record (-5)) "203.0.113.42".toList (sample.put 60)
      (by decide)⟩

/-! ### Zone discovery -/

/-- Splitting never gives the empty list of parts. -/
theorem Split_ne_nil (s : Str) (sep : Char) : strings.Split s sep ≠ [] := by
  cases s with
  | nil => simp [strings.Split]
  | cons c cs =>
    unfold strings.Split
    split_ifs
    · simp
    · split <;> simp

/-- Joining the parts with the separator gives the string back. -/
theorem intercalate_Split (s : Str) (sep : Char) :
    [sep].intercalate (strings.Split s sep) = s := by
  induction s with
  | nil => simp [strings.Split, List.intercalate]
  | cons c cs ih =>
    unfold strings.Split
    split_ifs with hc
    · have hne := Split_ne_nil cs sep
      cases hs : strings.Split cs sep with
      | nil => exact absurd hs hne
      | cons p ps =>
        rw [hs] at ih
        rw [← ih, hc]
        simp [List.intercalate, List.intersperse]
    · cases hs : strings.Split cs sep with
      | nil => exact absurd hs (Split_ne_nil cs sep)
      | cons p ps =>
        rw [hs] at ih
        rw [← ih]
        cases ps <;> simp [List.intercalate, List.intersperse]

/-- The last two entries of a list with at least two entries. -/
theorem drop_length_sub_two (l : List Str) (h : 2 ≤ l.length) :
    l.drop (l.length - 2) = [l.getD (l.length - 2) [], l.getD (l.length - 1) []] := by
  induction l with
  | nil => simp at h
  | cons a t ih =>
    cases t with
    | nil => simp at h
    | cons b u =>
      cases u with
      | nil => simp
      | cons c v =>
        have h2 : 2 ≤ (b :: c :: v).length := by simp
        have ih2 := ih h2
        have e1 : (a :: b :: c :: v).length - 2 = ((b :: c :: v).length - 2) + 1 := by
          simp
        have e2 : (a :: b :: c :: v).length - 1 = ((b :: c :: v).length - 1) + 1 := by
          simp
        rw [e1, e2, List.drop_succ_cons, ih2, List.getD_cons_succ, List.getD_cons_succ]

/-- The target name computed by the code is the candidate apex of the
specification: the last two labels of the record name. -/
theorem extractZoneNameFromDNS_eq_lastTwoLabels (name : Str) :
    cloudflare.extractZoneNameFromDNS name = spec.lastTwoLabels name := by
  unfold cloudflare.extractZoneNameFromDNS spec.lastTwoLabels
  dsimp only
  split_ifs with h
  · rw [drop_length_sub_two _ h]
    simp [List.intercalate, List.intersperse]
  · have hne := Split_ne_nil name '.'
    have hi := intercalate_Split name '.'
    cases hs : strings.Split name '.' with
    | nil => exact absurd hs hne
    | cons p ps =>
      rw [hs] at h hi
      cases ps with
      | nil =>
        simp [List.intercalate, List.intersperse] at hi ⊢
        exact hi.symm
      | cons q qs => simp at h

/-- A non-empty record name has a non-empty target name. -/
theorem extractZoneNameFromDNS_ne_nil (name : Str) (h : name ≠ []) :
    cloudflare.extractZoneNameFromDNS name ≠ [] := by
  unfold cloudflare.extractZoneNameFromDNS
  dsimp only
  split_ifs
  · simp
  · exact h

/-- The loop collecting the zone names gives the names in listing order. -/
theorem getZoneNames_eq_map (zones : List cloudflare.Zone) :
    cloudflare.getZoneNames zones = zones.map (fun z => z.Name) := by
  unfold cloudflare.getZoneNames
  have key : ∀ (l : List cloudflare.Zone) (acc : List Str),
      l.foldl (fun names zone => names ++ [zone.Name]) acc = acc ++ l.map (fun z => z.Name) := by
    intro l
    induction l with
    | nil => simp
    | cons z t ih => intro acc; simp [ih]
  simpa using key zones []

/-! #### Zone discovery for every case table -/

/-- The comparison of the first loop is case-insensitive equality, for
every case table. -/
theorem equalFoldBy_iff (T : strings.CaseTable) (a b : Str) :
    strings.EqualFoldBy T a b = true ↔ spec.CaseInsensitiveEqBy T a b := by
  unfold spec.CaseInsensitiveEqBy
  induction a generalizing b with
  | nil =>
    cases b with
    | nil => simp [strings.EqualFoldBy]
    | cons y t => simp [strings.EqualFoldBy]
  | cons x s ih =>
    cases b with
    | nil => simp [strings.EqualFoldBy]
    | cons y t =>
      simp only [strings.EqualFoldBy, Bool.and_eq_true, List.forall₂_cons, ih]

/-- The suffix test of the second loop is the dot-bounded suffix relation,
for every case table that leaves the dot as it is. -/
theorem hasSuffixBy_iff (T : strings.CaseTable) (hdot : T.lower '.' = '.')
    (apex name : Str) :
    strings.HasSuffix (strings.ToLowerBy T name)
        (strings.ToLowerBy T (".".toList ++ apex)) = true ↔
      spec.DotBoundedSuffixBy T apex name := by
  unfold strings.HasSuffix spec.DotBoundedSuffixBy strings.ToLowerBy
  rw [List.isSuffixOf_iff_suffix]
  have hl : (".".toList ++ apex).map T.lower = '.' :: apex.map T.lower := by
    rw [show ".".toList ++ apex = '.' :: apex from rfl, List.map_cons, hdot]
  rw [hl]
  constructor
  · rintro ⟨front, hf⟩
    exact ⟨front, hf.symm⟩
  · rintro ⟨front, hf⟩
    exact ⟨front, hf.symm⟩

/-- The first loop finds nothing exactly when no zone name equals the
target up to case. -/
theorem matchExactBy_eq_none (T : strings.CaseTable) (target : Str)
    (zones : List cloudflare.Zone) :
    cloudflare.matchExactBy T target zones = none ↔
      ∀ z ∈ zones, ¬ spec.CaseInsensitiveEqBy T z.Name target := by
  induction zones with
  | nil => simp [cloudflare.matchExactBy]
  | cons z t ih =>
    simp only [cloudflare.matchExactBy]
    by_cases hz : strings.EqualFoldBy T z.Name target = true
    · rw [if_pos hz]
      have hd := (equalFoldBy_iff T _ _).mp hz
      constructor
      · intro h
        cases h
      · intro h
        exact absurd hd (h z (List.mem_cons_self _ _))
    · rw [if_neg hz, ih]
      have hn : ¬ spec.CaseInsensitiveEqBy T z.Name target :=
        fun hc => hz ((equalFoldBy_iff T _ _).mpr hc)
      constructor
      · intro h y hy
        rcases List.mem_cons.mp hy with rfl | hy
        · exact hn
        · exact h y hy
      · intro h y hy
        exact h y (List.mem_cons_of_mem _ hy)

/-- The first loop returns the first zone, in listing order, whose name
equals the target up to case. -/
theorem matchExactBy_first (T : strings.CaseTable) (target : Str)
    (front : List cloudflare.Zone) (z : cloudflare.Zone) (back : List cloudflare.Zone)
    (hz : spec.CaseInsensitiveEqBy T z.Name target)
    (hfront : ∀ y ∈ front, ¬ spec.CaseInsensitiveEqBy T y.Name target) :
    cloudflare.matchExactBy T target (front ++ z :: back) = some z := by
  induction front with
  | nil =>
    simp only [List.nil_append, cloudflare.matchExactBy]
    rw [if_pos ((equalFoldBy_iff T _ _).mpr hz)]
  | cons y t ih =>
    have hy : ¬ strings.EqualFoldBy T y.Name target = true :=
      fun hc => hfront y (List.mem_cons_self _ _) ((equalFoldBy_iff T _ _).mp hc)
    have ht : ∀ x ∈ t, ¬ spec.CaseInsensitiveEqBy T x.Name target :=
      fun x hx => hfront x (List.mem_cons_of_mem _ hx)
    simp only [List.cons_append, cloudflare.matchExactBy]
    rw [if_neg hy]
    exact ih ht

/-- The second loop finds nothing exactly when no zone name is a
dot-bounded suffix of the record name. -/
theorem matchSuffixBy_eq_none (T : strings.CaseTable) (hdot : T.lower '.' = '.')
    (name : Str) (zones : List cloudflare.Zone) :
    cloudflare.matchSuffixBy T name zones = none ↔
      ∀ z ∈ zones, ¬ spec.DotBoundedSuffixBy T z.Name name := by
  induction zones with
  | nil => simp [cloudflare.matchSuffixBy]
  | cons z t ih =>
    simp only [cloudflare.matchSuffixBy]
    by_cases hz : strings.HasSuffix (strings.ToLowerBy T name)
        (strings.ToLowerBy T (".".toList ++ z.Name)) = true
    · rw [if_pos hz]
      have hd := (hasSuffixBy_iff T hdot _ _).mp hz
      constructor
      · intro h
        cases h
      · intro h
        exact absurd hd (h z (List.mem_cons_self _ _))
    · rw [if_neg hz, ih]
      have hn : ¬ spec.DotBoundedSuffixBy T z.Name name :=
        fun hc => hz ((hasSuffixBy_iff T hdot _ _).mpr hc)
      constructor
      · intro h y hy
        rcases List.mem_cons.mp hy with rfl | hy
        · exact hn
        · exact h y hy
      · intro h y hy
        exact h y (List.mem_cons_of_mem _ hy)

/-- The second loop returns the first zone, in listing order, whose name
is a dot-bounded suffix of the record name. -/
theorem matchSuffixBy_first (T : strings.CaseTable) (hdot : T.lower '.' = '.')
    (name : Str) (front : List cloudflare.Zone) (z : cloudflare.Zone)
    (back : List cloudflare.Zone)
    (hz : spec.DotBoundedSuffixBy T z.Name name)
    (hfront : ∀ y ∈ front, ¬ spec.DotBoundedSuffixBy T y.Name name) :
    cloudflare.matchSuffixBy T name (front ++ z :: back) = some z := by
  induction front with
  | nil =>
    simp only [List.nil_append, cloudflare.matchSuffixBy]
    rw [if_pos ((hasSuffixBy_iff T hdot _ _).mpr hz)]
  | cons y t ih =>
    have hy : ¬ strings.HasSuffix (strings.ToLowerBy T name)
        (strings.ToLowerBy T (".".toList ++ y.Name)) = true :=
      fun hc => hfront y (List.mem_cons_self _ _) ((hasSuffixBy_iff T hdot _ _).mp hc)
    have ht : ∀ x ∈ t, ¬ spec.DotBoundedSuffixBy T x.Name name :=
      fun x hx => hfront x (List.mem_cons_of_mem _ hx)
    simp only [List.cons_append, cloudflare.matchSuffixBy]
    rw [if_neg hy]
    exact ih ht

/-- With the zones listed and a non-empty record name, `AutoDiscoverZoneID`
is the first loop, then the second loop, then the not-found error, for
every case table. -/
theorem AutoDiscoverZoneIDBy_listed (T : strings.CaseTable) (zones : List cloudflare.Zone)
    (name : Str) (hname : name ≠ []) :
    cloudflare.AutoDiscoverZoneIDBy T (.ok zones) name =
      match cloudflare.matchExactBy T (spec.lastTwoLabels name) zones with
      | some z => .ok z.ID
      | none =>
        match cloudflare.matchSuffixBy T name zones with
        | some z => .ok z.ID
        | none => .error (.zoneNotFound (spec.lastTwoLabels name)
            (zones.map (fun z => z.Name))) := by
  have hne := extractZoneNameFromDNS_ne_nil name hname
  unfold cloudflare.AutoDiscoverZoneIDBy
  dsimp only
  rw [if_neg hne, extractZoneNameFromDNS_eq_lastTwoLabels, getZoneNames_eq_map]
  cases cloudflare.matchExactBy T (spec.lastTwoLabels name) zones with
  | some z => rfl
  | none =>
    cases cloudflare.matchSuffixBy T name zones with
    | some z => rfl
    | none => rfl

/-- On the table for `A`-`Z`, the comparison with the table as parameter is
`strings.EqualFold`. -/
theorem EqualFold_eq_asciiTable (a b : Str) :
    strings.EqualFold a b = strings.EqualFoldBy strings.asciiTable a b := by
  unfold strings.EqualFold strings.ToLower
  induction a generalizing b with
  | nil =>
    cases b with
    | nil => rfl
    | cons y t => rfl
  | cons x s ih =>
    cases b with
    | nil => rfl
    | cons y t =>
      have hcons : ((x :: s).map Char.toLower == (y :: t).map Char.toLower) =
          ((x.toLower == y.toLower) && (s.map Char.toLower == t.map Char.toLower)) := rfl
      rw [hcons, ih]
      rfl

/-- On the table for `A`-`Z`, zone discovery with the table as parameter is
`AutoDiscoverZoneID`. -/
theorem AutoDiscoverZoneID_eq_asciiTable
    (getZones : Except cloudflare.ClientError (List cloudflare.Zone)) (name : Str) :
    cloudflare.AutoDiscoverZoneID getZones name =
      cloudflare.AutoDiscoverZoneIDBy strings.asciiTable getZones name := by
  have hexact : ∀ (target : Str) (zones : List cloudflare.Zone),
      cloudflare.matchExact target zones =
        cloudflare.matchExactBy strings.asciiTable target zones := by
    intro target zones
    induction zones with
    | nil => rfl
    | cons z t ih =>
      simp only [cloudflare.matchExact, cloudflare.matchExactBy, EqualFold_eq_asciiTable, ih]
  have hsuffix : ∀ (zones : List cloudflare.Zone),
      cloudflare.matchSuffix name zones =
        cloudflare.matchSuffixBy strings.asciiTable name zones := by
    intro zones
    induction zones with
    | nil => rfl
    | cons z t ih =>
      simp only [cloudflare.matchSuffix, cloudflare.matchSuffixBy, ih]
      rfl
  unfold cloudflare.AutoDiscoverZoneID cloudflare.AutoDiscoverZoneIDBy
  dsimp only
  split_ifs
  · rfl
  · cases getZones with
    | error err => rfl
    | ok zones =>
      dsimp only
      rw [hexact, hsuffix]

/-- C3, as amended: for a non-empty record name and a listed set of zones,
`AutoDiscoverZoneID` returns the ID of the first zone in listing order whose
apex equals the last two labels of the record name up to case, when there
is one; otherwise it returns the ID of the first zone in listing order whose
apex is a dot-bounded, case-insensitive suffix of the record name, when
there is one (first found, not longest).  This holds for every name and
every case table that leaves the dot as it is, the tables of Go's `unicode`
package among them. -/
theorem C3_first_match_zone (T : strings.CaseTable) (hdot : T.lower '.' = '.')
    (zones : List cloudflare.Zone) (name : Str)
    (front : List cloudflare.Zone) (z : cloudflare.Zone) (back : List cloudflare.Zone)
    (hname : name ≠ []) (hzones : zones = front ++ z :: back) :
    (spec.CaseInsensitiveEqBy T z.Name (spec.lastTwoLabels name) →
      (∀ y ∈ front, ¬ spec.CaseInsensitiveEqBy T y.Name (spec.lastTwoLabels name)) →
      cloudflare.AutoDiscoverZoneIDBy T (.ok zones) name = .ok z.ID) ∧
    ((∀ y ∈ zones, ¬ spec.CaseInsensitiveEqBy T y.Name (spec.lastTwoLabels name)) →
      spec.DotBoundedSuffixBy T z.Name name →
      (∀ y ∈ front, ¬ spec.DotBoundedSuffixBy T y.Name name) →
      cloudflare.AutoDiscoverZoneIDBy T (.ok zones) name = .ok z.ID) := by
  rw [AutoDiscoverZoneIDBy_listed T zones name hname]
  constructor
  · intro hz hfront
    rw [hzones, matchExactBy_first T _ front z back hz hfront]
  · intro hnone hz hfront
    rw [(matchExactBy_eq_none T _ zones).mpr hnone]
    dsimp only
    rw [hzones, matchSuffixBy_first T hdot name front z back hz hfront]

set_option maxRecDepth 20000 in
/-- Witness for C3 as amended: with the zones `example.com` and
`sub.example.com`, the record `host.sub.example.com` resolves to the zone
`example.com`, whose apex equals the last two labels of the name. -/
theorem C3_first_match_zone_witness :
    strings.asciiTable.lower '.' = '.' ∧
      "host.sub.example.com".toList ≠ [] ∧
      spec.CaseInsensitiveEqBy strings.asciiTable "example.com".toList
        (spec.lastTwoLabels "host.sub.example.com".toList) ∧
      cloudflare.AutoDiscoverZoneIDBy strings.asciiTable (.ok sample.zones)
          "host.sub.example.com".toList = .ok "id-example".toList :=
  ⟨by decide, by decide, (equalFoldBy_iff _ _ _).mp (by decide),
   (C3_first_match_zone strings.asciiTable (by decide) sample.zones
      "host.sub.example.com".toList []
      { ID := "id-example".toList, Name := "example.com".toList, Status := "active".toList }
      [{ ID := "id-sub".toList, Name := "sub.example.com".toList, Status := "active".toList }]
      (by decide) rfl).1
      ((equalFoldBy_iff _ _ _).mp (by decide))
      (fun y hy => absurd hy (List.not_mem_nil y))⟩

set_option maxRecDepth 20000 in
/-- Counterexample to C3 as stated: the zones `example.com` and
`sub.example.com` are listed and `sub.example.com` is a dot-bounded suffix
of `host.sub.example.com`, yet `AutoDiscoverZoneID` returns the ID of
`example.com`, which is not the ID of any zone with the longest matching
apex. -/
theorem C3_longest_suffix_counterexample :
    (∃ z ∈ sample.zones, spec.DotBoundedSuffix z.Name "host.sub.example.com".toList) ∧
      cloudflare.AutoDiscoverZoneID (.ok sample.zones) "host.sub.example.com".toList =
        .ok "id-example".toList ∧
      ¬ ∃ z, spec.IsLongestSuffixZone sample.zones "host.sub.example.com".toList z ∧
        cloudflare.AutoDiscoverZoneID (.ok sample.zones) "host.sub.example.com".toList =
          .ok z.ID := by
  have hsub : spec.DotBoundedSuffix "sub.example.com".toList "host.sub.example.com".toList :=
    ⟨"host".toList, by decide⟩
  have hres : cloudflare.AutoDiscoverZoneID (.ok sample.zones) "host.sub.example.com".toList =
      .ok "id-example".toList := rfl
  refine ⟨⟨_, List.mem_cons_of_mem _ (List.mem_cons_self _ _), hsub⟩, hres, ?_⟩
  rintro ⟨z, ⟨hmem, _, hlong⟩, hid⟩
  rw [hres] at hid
  have hlen := hlong
    { ID := "id-sub".toList, Name := "sub.example.com".toList, Status := "active".toList }
    (List.mem_cons_of_mem _ (List.mem_cons_self _ _)) hsub
  have hidz : z.ID = "id-example".toList := by
    injection hid with h
    exact h.symm
  simp only [sample.zones, List.mem_cons, List.mem_singleton, List.not_mem_nil, or_false] at hmem
  rcases hmem with rfl | rfl
  · revert hlen
    decide
  · revert hidz
    decide

/-- C4: for a non-empty record name and a listed set of zones,
`AutoDiscoverZoneID` fails exactly when no zone's apex equals the last two
labels of the record name up to case and no zone's apex is a dot-bounded,
case-insensitive suffix of the record name; every such failure is the
not-found error, which carries the names of all listed zones in listing
order.  This holds for every name and every case table that leaves the dot
as it is, the tables of Go's `unicode` package among them. -/
theorem C4_not_found_iff (T : strings.CaseTable) (hdot : T.lower '.' = '.')
    (zones : List cloudflare.Zone) (name : Str) (hname : name ≠ []) :
    ((∃ e, cloudflare.AutoDiscoverZoneIDBy T (.ok zones) name = .error e) ↔
      ((∀ z ∈ zones, ¬ spec.CaseInsensitiveEqBy T z.Name (spec.lastTwoLabels name)) ∧
        (∀ z ∈ zones, ¬ spec.DotBoundedSuffixBy T z.Name name))) ∧
    (∀ e, cloudflare.AutoDiscoverZoneIDBy T (.ok zones) name = .error e →
      e = .zoneNotFound (spec.lastTwoLabels name) (zones.map (fun z => z.Name))) := by
  rw [AutoDiscoverZoneIDBy_listed T zones name hname,
    ← matchExactBy_eq_none, ← matchSuffixBy_eq_none T hdot]
  cases cloudflare.matchExactBy T (spec.lastTwoLabels name) zones with
  | some z => simp
  | none =>
    cases cloudflare.matchSuffixBy T name zones with
    | some z => simp
    | none => simp

set_option maxRecDepth 20000 in
/-- Witness for C4: with the zones `example.com` and `sub.example.com`, the
record `host.example.org` is not found and the error lists both zones. -/
theorem C4_not_found_iff_witness :
    strings.asciiTable.lower '.' = '.' ∧
      "host.example.org".toList ≠ [] ∧
      cloudflare.AutoDiscoverZoneIDBy strings.asciiTable (.ok sample.zones)
          "host.example.org".toList =
        .error (.zoneNotFound "example.org".toList
          ["example.com".toList, "sub.example.com".toList]) ∧
      cloudflare.ClientError.zoneNotFound "example.org".toList
          ["example.com".toList, "sub.example.com".toList] =
        .zoneNotFound (spec.lastTwoLabels "host.example.org".toList)
          (sample.zones.map (fun z => z.Name)) :=
  ⟨by decide, by decide, rfl,
   (C4_not_found_iff strings.asciiTable (by decide) sample.zones
      "host.example.org".toList (by decide)).2
      (.zoneNotFound "example.org".toList ["example.com".toList, "sub.example.com".toList])
      rfl⟩

/-! ### Configuration validation and start-up -/

/-- The line added for a record with an invalid TTL is never empty. -/
theorem ttlMessage_ne_nil (record : config.DNSRecord) : config.ttlMessage record ≠ [] := by
  unfold config.ttlMessage
  intro h
  have hlen := congrArg List.length h
  simp at hlen

/-- The loop of `Validate` over the records leaves a non-empty text exactly
when the text was non-empty before or some record has an invalid TTL. -/
theorem validate_loop_ne_nil (records : List config.DNSRecord) (acc : Str) :
    records.foldl (fun msg record =>
        if record.TTL ≠ 1 ∧ (record.TTL < 60 ∨ record.TTL > 86400) then
          msg ++ config.ttlMessage record
        else msg) acc ≠ [] ↔
      (acc ≠ [] ∨ ∃ r ∈ records, ¬ spec.ValidTTL r.TTL) := by
  induction records generalizing acc with
  | nil => simp
  | cons r t ih =>
    rw [List.foldl_cons, ih]
    by_cases hbad : r.TTL ≠ 1 ∧ (r.TTL < 60 ∨ r.TTL > 86400)
    · have hnv : ¬ spec.ValidTTL r.TTL := by
        unfold spec.ValidTTL
        omega
      have hm := ttlMessage_ne_nil r
      rw [if_pos hbad]
      constructor
      · intro _
        exact Or.inr ⟨r, List.mem_cons_self _ _, hnv⟩
      · intro _
        left
        intro h
        exact hm (List.append_eq_nil.mp h).2
    · have hv : spec.ValidTTL r.TTL := by
        unfold spec.ValidTTL
        omega
      rw [if_neg hbad]
      constructor
      · rintro (h | ⟨x, hx, hxv⟩)
        · exact Or.inl h
        · exact Or.inr ⟨x, List.mem_cons_of_mem _ hx, hxv⟩
      · rintro (h | ⟨x, hx, hxv⟩)
        · exact Or.inl h
        · rcases List.mem_cons.mp hx with rfl | hx
          · exact absurd hv hxv
          · exact Or.inr ⟨x, hx, hxv⟩

/-- With a token, at least one record and the webhook disabled, `Validate`
fails exactly when some record has an invalid TTL. -/
theorem validate_iff_invalid_ttl (c : config.Config)
    (htoken : c.Cloudflare.APIToken ≠ []) (hrecords : c.DNSRecords ≠ [])
    (hwebhook : c.Webhook.Enabled = false) :
    c.Validate ≠ none ↔ ∃ r ∈ c.DNSRecords, ¬ spec.ValidTTL r.TTL := by
  have hlen : ¬ c.DNSRecords.length = 0 := by
    intro h
    exact hrecords (List.length_eq_zero.mp h)
  have hloop : c.DNSRecords.foldl (fun msg record =>
        if record.TTL ≠ 1 ∧ (record.TTL < 60 ∨ record.TTL > 86400) then
          msg ++ config.ttlMessage record
        else msg) [] ≠ [] ↔ ∃ r ∈ c.DNSRecords, ¬ spec.ValidTTL r.TTL := by
    rw [validate_loop_ne_nil]
    constructor
    · rintro (h | h)
      · exact absurd rfl h
      · exact h
    · intro h
      exact Or.inr h
  unfold config.Config.Validate
  simp only [if_neg htoken, if_neg hlen, hwebhook, Bool.false_eq_true, if_false]
  rw [← hloop]
  generalize List.foldl _ [] c.DNSRecords = loop
  by_cases h : loop ≠ []
  · rw [if_pos h]
    simp [h]
  · rw [if_neg h]
    simp [h]

/-- C5: for a configuration with a non-empty API token, at least one DNS
record and the webhook disabled, `Validate` returns an error exactly when
some record has a TTL that is neither 1 nor within 60 to 86400; a record
with TTL 0, 59 or 86401 is rejected, and records whose TTLs are all among
1, 60 and 86400 are accepted. -/
theorem C5_validate_ttl (c : config.Config)
    (htoken : c.Cloudflare.APIToken ≠ []) (hrecords : c.DNSRecords ≠ [])
    (hwebhook : c.Webhook.Enabled = false) :
    (c.Validate ≠ none ↔
      ∃ r ∈ c.DNSRecords, ¬ (r.TTL = 1 ∨ (60 ≤ r.TTL ∧ r.TTL ≤ 86400))) ∧
    ((∃ r ∈ c.DNSRecords, r.TTL = 0 ∨ r.TTL = 59 ∨ r.TTL = 86401) → c.Validate ≠ none) ∧
    ((∀ r ∈ c.DNSRecords, r.TTL = 1 ∨ r.TTL = 60 ∨ r.TTL = 86400) → c.Validate = none) := by
  have key := validate_iff_invalid_ttl c htoken hrecords hwebhook
  unfold spec.ValidTTL at key
  refine ⟨key, ?_, ?_⟩
  · rintro ⟨r, hr, ht⟩
    exact key.mpr ⟨r, hr, by omega⟩
  · intro hall
    by_contra hne
    obtain ⟨r, hr, ht⟩ := key.mp hne
    have := hall r hr
    omega

set_option maxRecDepth 20000 in
/-- Witness for C5: a configuration with a token, the webhook disabled and
one record with TTL 59 is rejected. -/
theorem C5_validate_ttl_witness :
    (sample.configWithTTL 59).Cloudflare.APIToken ≠ [] ∧
      (sample.configWithTTL 59).DNSRecords ≠ [] ∧
      (sample.configWithTTL 59).Webhook.Enabled = false ∧
      (sample.configWithTTL 59).Validate ≠ none :=
  ⟨by decide, by decide, rfl,
   (C5_validate_ttl (sample.configWithTTL 59) (by decide) (by decide) rfl).2.1
     ⟨sample.record 59, List.mem_singleton.mpr rfl, Or.inr (Or.inl rfl)⟩⟩

/-- C6, as amended: only a failure to load the configuration is fatal at
start-up.  When `LoadConfig` fails, `getConfig` returns that error and the
run command aborts; when `LoadConfig` succeeds, `getConfig` returns the
loaded configuration whether or not `Validate` fails on it, and the run
command starts the service with it. -/
theorem C6_only_load_errors_fatal (h : config.Host) (cfgFile : Str) (verbose : Bool) :
    (∀ err, config.LoadConfig h (cmd.getConfigPath h cfgFile) = .error err →
      (cmd.getConfig h cfgFile verbose).2 = .error err ∧
        cmd.runCmd h cfgFile verbose = .fatal err) ∧
    (∀ cfg, config.LoadConfig h (cmd.getConfigPath h cfgFile) = .ok cfg →
      (cmd.getConfig h cfgFile verbose).2 = .ok cfg ∧
        cmd.runCmd h cfgFile verbose = .serviceStarted cfg) := by
  constructor
  · intro err hload
    have hg : (cmd.getConfig h cfgFile verbose).2 = .error err := by
      unfold cmd.getConfig
      rw [hload]
    refine ⟨hg, ?_⟩
    unfold cmd.runCmd
    rw [hg]
  · intro cfg hload
    have hg : (cmd.getConfig h cfgFile verbose).2 = .ok cfg := by
      unfold cmd.getConfig
      rw [hload]
      dsimp only
      cases cfg.Validate with
      | none => rfl
      | some err => cases verbose <;> rfl
    refine ⟨hg, ?_⟩
    unfold cmd.runCmd
    rw [hg]

set_option maxRecDepth 20000 in
/-- Witness for C6 as amended: on a host whose configuration file cannot be
read, `getConfig` returns the read error and the run command aborts. -/
theorem C6_only_load_errors_fatal_witness :
    config.LoadConfig sample.unreadableHost (cmd.getConfigPath sample.unreadableHost []) =
        .error (.readFailed "no such file".toList) ∧
      (cmd.getConfig sample.unreadableHost [] false).2 =
        .error (.readFailed "no such file".toList) ∧
      cmd.runCmd sample.unreadableHost [] false = .fatal (.readFailed "no such file".toList) :=
  ⟨rfl, (C6_only_load_errors_fatal sample.unreadableHost [] false).1
    (.readFailed "no such file".toList) rfl⟩

set_option maxRecDepth 20000 in
/-- Counterexample to C6 as stated: the configuration loaded from an empty
document has no API token and no DNS record, `Validate` fails on it, and
still `getConfig` returns it without an error and the run command starts the
service with it. -/
theorem C6_validation_failure_not_fatal :
    config.LoadConfig sample.emptyHost (cmd.getConfigPath sample.emptyHost []) =
        .ok sample.emptyLoaded ∧
      sample.emptyLoaded.Validate ≠ none ∧
      (cmd.getConfig sample.emptyHost [] false).2 = .ok sample.emptyLoaded ∧
      (cmd.getConfig sample.emptyHost [] true).2 = .ok sample.emptyLoaded ∧
      cmd.runCmd sample.emptyHost [] false = .serviceStarted sample.emptyLoaded :=
  ⟨rfl, by decide, rfl, rfl, rfl⟩

/-! ### Escaping -/

/-- One pass of `strings.ReplaceAll` for a one-character pattern rewrites
each character on its own. -/
theorem ReplaceAll_single (s : Str) (c : Char) (new : Str) :
    strings.ReplaceAll s [c] new = s.flatMap (fun x => if x = c then new else [x]) := by
  unfold strings.ReplaceAll
  rw [if_neg (List.cons_ne_nil c [])]
  induction s with
  | nil => simp [strings.replaceScan]
  | cons x xs ih =>
    by_cases hx : x = c
    · subst hx
      simp [strings.replaceScan, ih]
    · have hne : ¬ c = x := fun h => hx h.symm
      simp [strings.replaceScan, ih, hx, hne]

/-- A chain of character-wise passes is itself character-wise. -/
theorem foldl_flatMap_pointwise (f : Char → Char → Str) (cs : List Char) (s : Str) :
    cs.foldl (fun t c => t.flatMap (f c)) s =
      s.flatMap (fun x => cs.foldl (fun t c => t.flatMap (f c)) [x]) := by
  induction cs generalizing s with
  | nil => simp
  | cons c cs ih =>
    rw [List.foldl_cons, ih (s.flatMap (f c)), List.flatMap_assoc]
    congr 1
    funext x
    rw [List.foldl_cons, ih ([x].flatMap (f c))]
    simp

/-- A chain of escaping passes leaves a text alone when none of its
characters is escaped by any pass. -/
theorem foldl_escape_untouched (cs : List Char) (t : Str) (h : ∀ y ∈ t, y ∉ cs) :
    cs.foldl (fun t c => t.flatMap (fun x => if x = c then ['\\', c] else [x])) t = t := by
  induction cs generalizing t with
  | nil => rfl
  | cons c cs ih =>
    rw [List.foldl_cons]
    have hstep : t.flatMap (fun x => if x = c then ['\\', c] else [x]) = t := by
      have hfun : ∀ y ∈ t, (if y = c then ['\\', c] else [y]) = [y] := by
        intro y hy
        have hyc : y ≠ c := fun e => h y hy (e ▸ List.mem_cons_self _ _)
        rw [if_neg hyc]
      clear h ih
      induction t with
      | nil => rfl
      | cons a t iht =>
        rw [List.flatMap_cons, hfun a (List.mem_cons_self _ _),
          iht (fun y hy => hfun y (List.mem_cons_of_mem _ hy))]
        rfl
    rw [hstep]
    exact ih t (fun y hy hmem => h y hy (List.mem_cons_of_mem _ hmem))

/-- On one character, a chain of escaping passes over distinct characters
other than the backslash escapes the character once if it is in the chain
and keeps it otherwise. -/
theorem foldl_escape_char (cs : List Char) (hnodup : cs.Nodup) (hback : '\\' ∉ cs) (x : Char) :
    cs.foldl (fun t c => t.flatMap (fun y => if y = c then ['\\', c] else [y])) [x] =
      if x ∈ cs then ['\\', x] else [x] := by
  induction cs with
  | nil => simp
  | cons c cs ih =>
    rw [List.foldl_cons]
    have hnd := List.nodup_cons.mp hnodup
    have hb : '\\' ∉ cs := fun hm => hback (List.mem_cons_of_mem _ hm)
    by_cases hx : x = c
    · subst hx
      have h1 : [x].flatMap (fun y => if y = x then ['\\', x] else [y]) = ['\\', x] := by simp
      rw [h1, foldl_escape_untouched cs ['\\', x]]
      · simp
      · intro y hy
        simp only [List.mem_cons, List.mem_singleton, List.not_mem_nil, or_false] at hy
        rcases hy with rfl | rfl
        · exact hb
        · exact hnd.1
    · have h1 : [x].flatMap (fun y => if y = c then ['\\', c] else [y]) = [x] := by simp [hx]
      rw [h1, ih hnd.2 hb]
      simp [hx]

/-- The slice `chars` holds the 18 special characters, one per entry. -/
theorem escapeMarkdownChars_eq :
    webhook.escapeMarkdownChars = spec.markdownSpecials.map (fun c => [c]) :=
  rfl

/-- The loop of `escapeMarkdown` over a list of one-character patterns. -/
theorem escapeMarkdown_loop (cs : List Char) (text : Str) :
    (cs.map (fun c => [c])).foldl
        (fun text char => strings.ReplaceAll text char ("\\".toList ++ char)) text =
      cs.foldl (fun t c => t.flatMap (fun y => if y = c then ['\\', c] else [y])) text := by
  induction cs generalizing text with
  | nil => rfl
  | cons c cs ih =>
    rw [List.map_cons, List.foldl_cons, List.foldl_cons, ReplaceAll_single, ih]
    rfl

/-- The source function `escapeMarkdown` is the one-pass escaping. -/
theorem escapeMarkdown_eq_onePass (text : Str) :
    webhook.escapeMarkdown text = spec.escapeMarkdownOnePass text := by
  unfold webhook.escapeMarkdown spec.escapeMarkdownOnePass
  have hnodup : spec.markdownSpecials.Nodup := by decide
  have hback : '\\' ∉ spec.markdownSpecials := by decide
  have hfun : (fun x => spec.markdownSpecials.foldl
        (fun t c => t.flatMap (fun y => if y = c then ['\\', c] else [y])) [x]) =
      (fun c => if c ∈ spec.markdownSpecials then ['\\', c] else [c]) :=
    funext (fun x => foldl_escape_char spec.markdownSpecials hnodup hback x)
  rw [escapeMarkdownChars_eq, escapeMarkdown_loop, foldl_flatMap_pointwise, hfun]

/-- C7: for every input, `escapeMarkdown` returns the text obtained in one
pass from left to right by putting a backslash in front of each occurrence
of one of the 18 special characters and keeping every other character. -/
theorem C7_escapeMarkdown_single_pass (text : Str) :
    webhook.escapeMarkdown text =
      text.flatMap (fun c =>
        if c ∈ ['_', '*', '[', ']', '(', ')', '~', '\x60', '>', '#', '+', '-', '=', '|',
            '\x7b', '\x7d', '.', '!'] then ['\\', c]
        else [c]) :=
  escapeMarkdown_eq_onePass text

/-- The one-pass form shows that `escapeMarkdown` works piece by piece. -/
theorem escapeMarkdown_append (a b : Str) :
    webhook.escapeMarkdown (a ++ b) = webhook.escapeMarkdown a ++ webhook.escapeMarkdown b := by
  rw [escapeMarkdown_eq_onePass, escapeMarkdown_eq_onePass, escapeMarkdown_eq_onePass]
  unfold spec.escapeMarkdownOnePass
  rw [List.flatMap_append]

/-- In every case `sendTelegramMessage` issues exactly one POST, to the
configured URL, carrying the message built from the template. -/
theorem sendTelegramMessage_posts (w : webhook.WebhookClient) (env : webhook.Env)
    (title message details level : Str) :
    (w.sendTelegramMessage env title message details level).1 =
      [{ url := w.url, payload := .telegram (w.tgMessage title message details) }] := by
  unfold webhook.WebhookClient.sendTelegramMessage
  dsimp only
  cases env.post { url := w.url, payload := .telegram (w.tgMessage title message details) } with
  | failed err => rfl
  | response status body =>
    dsimp only
    split_ifs <;> rfl

/-- The message built with the template `markdown`. -/
theorem tgMessage_markdown (w : webhook.WebhookClient) (title message details : Str)
    (htemplate : w.template = "markdown".toList) :
    w.tgMessage title message details =
      { ChatID := w.chatID
        Text := "*".toList ++ webhook.escapeMarkdown title ++ "*\n".toList ++
          webhook.escapeMarkdown message ++ "\n\n```\n".toList ++
          webhook.escapeMarkdown details ++ "\n```".toList
        ParseMode := "MarkdownV2".toList } := by
  have h1 : ¬ w.template = "html".toList := by
    rw [htemplate]
    decide
  unfold webhook.WebhookClient.tgMessage
  rw [if_neg h1, if_pos (Or.inl htemplate)]

/-- The message built with the template `html`. -/
theorem tgMessage_html (w : webhook.WebhookClient) (title message details : Str)
    (htemplate : w.template = "html".toList) :
    w.tgMessage title message details =
      { ChatID := w.chatID
        Text := "<b>".toList ++ webhook.escapeHTML title ++ "</b>\n".toList ++
          webhook.escapeHTML message ++ "\n\n<pre>".toList ++
          webhook.escapeHTML details ++ "</pre>".toList
        ParseMode := "HTML".toList } := by
  unfold webhook.WebhookClient.tgMessage
  rw [if_pos htemplate]

set_option maxRecDepth 20000 in
/-- C8: in telegram mode with the template `markdown`, an enabled notifier
with `on_success` set sends for a success event one POST whose `parse_mode`
is `MarkdownV2` and whose `text` contains `escapeMarkdown` of the record
name and of each of the two IPs; for the record name `a.b.example.com` and
the new IP `203.0.113.42` the text contains `a\.b\.example\.com` and
`203\.0\.113\.42`. -/
theorem C8_success_markdown (w : webhook.WebhookClient) (env : webhook.Env)
    (DNSip ip recordName : Str)
    (henabled : w.enabled = true) (hsuccess : w.onSuccess = true)
    (hhook : w.hookType = "telegram".toList) (htemplate : w.template = "markdown".toList) :
    ∃ text : Str,
      (w.SendSuccess env DNSip ip recordName).1 =
        [{ url := w.url
           payload := .telegram
             { ChatID := w.chatID, Text := text, ParseMode := "MarkdownV2".toList } }] ∧
      webhook.escapeMarkdown recordName <:+: text ∧
      webhook.escapeMarkdown DNSip <:+: text ∧
      webhook.escapeMarkdown ip <:+: text ∧
      (recordName = "a.b.example.com".toList → "a\\.b\\.example\\.com".toList <:+: text) ∧
      (ip = "203.0.113.42".toList → "203\\.0\\.113\\.42".toList <:+: text) := by
  have hposts : (w.SendSuccess env DNSip ip recordName).1 =
      [{ url := w.url
         payload := .telegram (w.tgMessage "✅ DDNS 更新成功".toList
           ("DNS 記錄 ".toList ++ recordName ++ " 發生變化".toList)
           (DNSip ++ " → ".toList ++ ip ++ "\n時間: ".toList ++ env.now)) }] := by
    unfold webhook.WebhookClient.SendSuccess webhook.WebhookClient.sendMessage
    simp only [henabled, hsuccess, Bool.not_true, Bool.or_self, Bool.false_eq_true, if_false,
      if_pos hhook]
    exact sendTelegramMessage_posts w env _ _ _ _
  rw [tgMessage_markdown w _ _ _ htemplate] at hposts
  refine ⟨_, hposts, ?_, ?_, ?_, ?_, ?_⟩
  · refine ⟨"*".toList ++ webhook.escapeMarkdown "✅ DDNS 更新成功".toList ++ "*\n".toList ++
        webhook.escapeMarkdown "DNS 記錄 ".toList,
      webhook.escapeMarkdown " 發生變化".toList ++ "\n\n```\n".toList ++
        webhook.escapeMarkdown (DNSip ++ " → ".toList ++ ip ++ "\n時間: ".toList ++ env.now) ++
        "\n```".toList, ?_⟩
    simp only [escapeMarkdown_append, List.append_assoc]
  · refine ⟨"*".toList ++ webhook.escapeMarkdown "✅ DDNS 更新成功".toList ++ "*\n".toList ++
        webhook.escapeMarkdown ("DNS 記錄 ".toList ++ recordName ++ " 發生變化".toList) ++
        "\n\n```\n".toList,
      webhook.escapeMarkdown (" → ".toList ++ ip ++ "\n時間: ".toList ++ env.now) ++
        "\n```".toList, ?_⟩
    simp only [escapeMarkdown_append, List.append_assoc]
  · refine ⟨"*".toList ++ webhook.escapeMarkdown "✅ DDNS 更新成功".toList ++ "*\n".toList ++
        webhook.escapeMarkdown ("DNS 記錄 ".toList ++ recordName ++ " 發生變化".toList) ++
        "\n\n```\n".toList ++ webhook.escapeMarkdown (DNSip ++ " → ".toList),
      webhook.escapeMarkdown ("\n時間: ".toList ++ env.now) ++ "\n```".toList, ?_⟩
    simp only [escapeMarkdown_append, List.append_assoc]
  · intro hname
    have hesc : webhook.escapeMarkdown "a.b.example.com".toList =
        "a\\.b\\.example\\.com".toList := by decide
    refine ⟨"*".toList ++ webhook.escapeMarkdown "✅ DDNS 更新成功".toList ++ "*\n".toList ++
        webhook.escapeMarkdown "DNS 記錄 ".toList,
      webhook.escapeMarkdown " 發生變化".toList ++ "\n\n```\n".toList ++
        webhook.escapeMarkdown (DNSip ++ " → ".toList ++ ip ++ "\n時間: ".toList ++ env.now) ++
        "\n```".toList, ?_⟩
    rw [← hesc, hname]
    simp only [escapeMarkdown_append, List.append_assoc]
  · intro hip
    have hesc : webhook.escapeMarkdown "203.0.113.42".toList =
        "203\\.0\\.113\\.42".toList := by decide
    refine ⟨"*".toList ++ webhook.escapeMarkdown "✅ DDNS 更新成功".toList ++ "*\n".toList ++
        webhook.escapeMarkdown ("DNS 記錄 ".toList ++ recordName ++ " 發生變化".toList) ++
        "\n\n```\n".toList ++ webhook.escapeMarkdown (DNSip ++ " → ".toList),
      webhook.escapeMarkdown ("\n時間: ".toList ++ env.now) ++ "\n```".toList, ?_⟩
    rw [← hesc, hip]
    simp only [escapeMarkdown_append, List.append_assoc]

/-- Witness for C8: an enabled telegram notifier with the template
`markdown` reports the record `a.b.example.com` moving to `203.0.113.42`. -/
theorem C8_success_markdown_witness :
    (sample.telegramClient "markdown".toList true true true).enabled = true ∧
      (sample.telegramClient "markdown".toList true true true).onSuccess = true ∧
      (sample.telegramClient "markdown".toList true true true).hookType = "telegram".toList ∧
      (sample.telegramClient "markdown".toList true true true).template = "markdown".toList ∧
      ∃ text : Str,
        ((sample.telegramClient "markdown".toList true true true).SendSuccess sample.env
            "198.51.100.7".toList "203.0.113.42".toList "a.b.example.com".toList).1 =
          [{ url := "https://api.telegram.org/bot/sendMessage".toList
             payload := .telegram
               { ChatID := "42".toList, Text := text, ParseMode := "MarkdownV2".toList } }] ∧
        "a\\.b\\.example\\.com".toList <:+: text ∧
        "203\\.0\\.113\\.42".toList <:+: text :=
  ⟨rfl, rfl, rfl, rfl,
   match C8_success_markdown (sample.telegramClient "markdown".toList true true true) sample.env
      "198.51.100.7".toList "203.0.113.42".toList "a.b.example.com".toList rfl rfl rfl rfl with
   | ⟨text, hposts, _, _, _, hname, hip⟩ => ⟨text, hposts, hname rfl, hip rfl⟩⟩

/-- The three passes of `escapeHTML` on one character. -/
theorem escapeHTML_char (x : Char) :
    (((if x = '&' then "&amp;".toList else [x]).flatMap
        (fun y => if y = '<' then "&lt;".toList else [y])).flatMap
        (fun y => if y = '>' then "&gt;".toList else [y])) =
      (if x = '&' then "&amp;".toList
       else if x = '<' then "&lt;".toList
       else if x = '>' then "&gt;".toList
       else [x]) := by
  by_cases h1 : x = '&'
  · subst h1
    decide
  · by_cases h2 : x = '<'
    · subst h2
      decide
    · by_cases h3 : x = '>'
      · subst h3
        decide
      · simp [h1, h2, h3]

/-- The source function `escapeHTML` is the one-pass escaping. -/
theorem escapeHTML_eq_onePass (text : Str) :
    webhook.escapeHTML text = spec.escapeHTMLOnePass text := by
  unfold webhook.escapeHTML spec.escapeHTMLOnePass
  dsimp only
  rw [show "&".toList = ['&'] from rfl, show "<".toList = ['<'] from rfl,
    show ">".toList = ['>'] from rfl, ReplaceAll_single, ReplaceAll_single, ReplaceAll_single]
  induction text with
  | nil => rfl
  | cons x xs ih =>
    simp only [List.flatMap_cons, List.flatMap_append]
    rw [ih, escapeHTML_char]

/-- The one-pass form shows that the output has neither `<` nor `>`. -/
theorem escapeHTMLOnePass_no_angle (text : Str) :
    '<' ∉ spec.escapeHTMLOnePass text ∧ '>' ∉ spec.escapeHTMLOnePass text := by
  unfold spec.escapeHTMLOnePass
  constructor
  · intro hmem
    obtain ⟨x, _, hx⟩ := List.mem_flatMap.mp hmem
    by_cases h1 : x = '&'
    · rw [if_pos h1] at hx
      revert hx
      decide
    · by_cases h2 : x = '<'
      · rw [if_neg h1, if_pos h2] at hx
        revert hx
        decide
      · by_cases h3 : x = '>'
        · rw [if_neg h1, if_neg h2, if_pos h3] at hx
          revert hx
          decide
        · rw [if_neg h1, if_neg h2, if_neg h3] at hx
          exact h2 (List.mem_singleton.mp hx).symm
  · intro hmem
    obtain ⟨x, _, hx⟩ := List.mem_flatMap.mp hmem
    by_cases h1 : x = '&'
    · rw [if_pos h1] at hx
      revert hx
      decide
    · by_cases h2 : x = '<'
      · rw [if_neg h1, if_pos h2] at hx
        revert hx
        decide
      · by_cases h3 : x = '>'
        · rw [if_neg h1, if_neg h2, if_pos h3] at hx
          revert hx
          decide
        · rw [if_neg h1, if_neg h2, if_neg h3] at hx
          exact h3 (List.mem_singleton.mp hx).symm

/-- An ampersand found in a text that starts with an ampersand-free piece
lies after that piece. -/
theorem ampersand_after_piece (piece : Str) (hpiece : '&' ∉ piece) (front back rest : Str)
    (h : piece ++ rest = front ++ '&' :: back) :
    ∃ front2, front = piece ++ front2 ∧ rest = front2 ++ '&' :: back := by
  induction piece generalizing front with
  | nil => exact ⟨front, rfl, h⟩
  | cons a l ih =>
    cases front with
    | nil =>
      exfalso
      have ha : a = '&' := by
        rw [List.nil_append, List.cons_append] at h
        exact (List.cons.inj h).1
      exact hpiece (ha ▸ List.mem_cons_self _ _)
    | cons b f =>
      rw [List.cons_append, List.cons_append] at h
      obtain ⟨hab, htail⟩ := List.cons.inj h
      obtain ⟨front2, hf, hr⟩ :=
        ih (fun hm => hpiece (List.mem_cons_of_mem _ hm)) f htail
      exact ⟨front2, by rw [hab, hf, List.cons_append], hr⟩

/-- An ampersand found in a text that starts with an entity is the one of
the entity, followed by the rest of the entity, or lies after the entity. -/
theorem ampersand_in_entity (tail : Str) (htail : '&' ∉ tail) (front back rest : Str)
    (h : ('&' :: tail) ++ rest = front ++ '&' :: back) :
    tail <+: back ∨ ∃ front2, rest = front2 ++ '&' :: back := by
  cases front with
  | nil =>
    left
    rw [List.nil_append, List.cons_append] at h
    exact ⟨rest, (List.cons.inj h).2⟩
  | cons b f =>
    right
    rw [List.cons_append, List.cons_append] at h
    obtain ⟨front2, _, hr⟩ := ampersand_after_piece tail htail f back rest (List.cons.inj h).2
    exact ⟨front2, hr⟩

/-- Every ampersand of the one-pass output starts one of the three
entities. -/
theorem escapeHTMLOnePass_ampersand (text front back : Str)
    (h : spec.escapeHTMLOnePass text = front ++ '&' :: back) :
    "amp;".toList <+: back ∨ "lt;".toList <+: back ∨ "gt;".toList <+: back := by
  induction text generalizing front with
  | nil =>
    exfalso
    have hlen := congrArg List.length h
    simp [spec.escapeHTMLOnePass] at hlen
    omega
  | cons x xs ih =>
    unfold spec.escapeHTMLOnePass at h
    rw [List.flatMap_cons] at h
    by_cases h1 : x = '&'
    · rw [if_pos h1] at h
      rcases ampersand_in_entity "amp;".toList (by decide) front back _ h with hp | ⟨f2, hr⟩
      · exact Or.inl hp
      · exact ih f2 hr
    · by_cases h2 : x = '<'
      · rw [if_neg h1, if_pos h2] at h
        rcases ampersand_in_entity "lt;".toList (by decide) front back _ h with hp | ⟨f2, hr⟩
        · exact Or.inr (Or.inl hp)
        · exact ih f2 hr
      · by_cases h3 : x = '>'
        · rw [if_neg h1, if_neg h2, if_pos h3] at h
          rcases ampersand_in_entity "gt;".toList (by decide) front back _ h with hp | ⟨f2, hr⟩
          · exact Or.inr (Or.inr hp)
          · exact ih f2 hr
        · rw [if_neg h1, if_neg h2, if_neg h3] at h
          have hx : '&' ∉ [x] := by
            intro hm
            exact h1 (List.mem_singleton.mp hm).symm
          obtain ⟨f2, _, hr⟩ := ampersand_after_piece [x] hx front back _ h
          exact ih f2 hr

/-- C9: for every input, `escapeHTML` returns the text obtained in one pass
by replacing each `&` with `&amp;`, each `<` with `&lt;` and each `>` with
`&gt;`; the output contains no `<` and no `>`, every `&` in it starts one of
the three entities, and the template `html` applies `escapeHTML` to the
title, the message and the details. -/
theorem C9_escapeHTML_single_pass (text : Str) :
    webhook.escapeHTML text =
      text.flatMap (fun c =>
        if c = '&' then "&amp;".toList
        else if c = '<' then "&lt;".toList
        else if c = '>' then "&gt;".toList
        else [c]) ∧
    '<' ∉ webhook.escapeHTML text ∧
    '>' ∉ webhook.escapeHTML text ∧
    (∀ front back : Str, webhook.escapeHTML text = front ++ '&' :: back →
      "amp;".toList <+: back ∨ "lt;".toList <+: back ∨ "gt;".toList <+: back) ∧
    (∀ (w : webhook.WebhookClient) (title message details : Str),
      w.template = "html".toList →
      w.tgMessage title message details =
        { ChatID := w.chatID
          Text := "<b>".toList ++ webhook.escapeHTML title ++ "</b>\n".toList ++
            webhook.escapeHTML message ++ "\n\n<pre>".toList ++
            webhook.escapeHTML details ++ "</pre>".toList
          ParseMode := "HTML".toList }) := by
  have hone := escapeHTML_eq_onePass text
  have hangle := escapeHTMLOnePass_no_angle text
  refine ⟨hone, ?_, ?_, ?_, ?_⟩
  · rw [hone]
    exact hangle.1
  · rw [hone]
    exact hangle.2
  · intro front back h
    rw [hone] at h
    exact escapeHTMLOnePass_ampersand text front back h
  · intro w title message details htemplate
    exact tgMessage_html w title message details htemplate

set_option maxRecDepth 20000 in
/-- Witness for C9: the text `a<b & c>d` is escaped to
`a&lt;b &amp; c&gt;d`; its first ampersand starts `&lt;`, and the template
`html` builds its message from the escaped fields. -/
theorem C9_escapeHTML_single_pass_witness :
    webhook.escapeHTML "a<b & c>d".toList = "a".toList ++ '&' :: "lt;b &amp; c&gt;d".toList ∧
      ("amp;".toList <+: "lt;b &amp; c&gt;d".toList ∨
        "lt;".toList <+: "lt;b &amp; c&gt;d".toList ∨
        "gt;".toList <+: "lt;b &amp; c&gt;d".toList) ∧
      (sample.telegramClient "html".toList true true true).tgMessage
          "t".toList "a<b".toList "x&y".toList =
        { ChatID := "42".toList
          Text := "<b>".toList ++ webhook.escapeHTML "t".toList ++ "</b>\n".toList ++
            webhook.escapeHTML "a<b".toList ++ "\n\n<pre>".toList ++
            webhook.escapeHTML "x&y".toList ++ "</pre>".toList
          ParseMode := "HTML".toList } :=
  ⟨by decide,
   (C9_escapeHTML_single_pass "a<b & c>d".toList).2.2.2.1 "a".toList
      "lt;b &amp; c&gt;d".toList (by decide),
   (C9_escapeHTML_single_pass "a<b & c>d".toList).2.2.2.2
      (sample.telegramClient "html".toList true true true) "t".toList "a<b".toList
      "x&y".toList rfl⟩

/-! ### Notifier suppression -/

/-- C10: a notifier that is not enabled issues no POST and returns no error
from `SendSuccess`, `SendFailure`, `SendInfo` and `SendTest`; with
`on_success` unset `SendSuccess` issues no POST whatever the other settings,
and with `on_failure` unset `SendFailure` issues no POST. -/
theorem C10_suppressed_sends (w : webhook.WebhookClient) (env : webhook.Env)
    (DNSip ip recordName errorMsg customMessage : Str) :
    (w.enabled = false →
      w.SendSuccess env DNSip ip recordName = ([], none) ∧
      w.SendFailure env recordName errorMsg = ([], none) ∧
      w.SendInfo env customMessage = ([], none) ∧
      w.SendTest env = ([], none)) ∧
    (w.onSuccess = false → w.SendSuccess env DNSip ip recordName = ([], none)) ∧
    (w.onFailure = false → w.SendFailure env recordName errorMsg = ([], none)) := by
  refine ⟨?_, ?_, ?_⟩
  · intro h
    refine ⟨?_, ?_, ?_, ?_⟩
    · unfold webhook.WebhookClient.SendSuccess
      simp [h]
    · unfold webhook.WebhookClient.SendFailure
      simp [h]
    · unfold webhook.WebhookClient.SendInfo
      simp [h]
    · unfold webhook.WebhookClient.SendTest
      simp [h]
  · intro h
    unfold webhook.WebhookClient.SendSuccess
    simp [h]
  · intro h
    unfold webhook.WebhookClient.SendFailure
    simp [h]

/-- Witness for C10: an enabled telegram notifier with `on_success` unset
issues no POST for a success event. -/
theorem C10_suppressed_sends_witness :
    (sample.telegramClient "text".toList true false true).onSuccess = false ∧
      (sample.telegramClient "text".toList true false true).SendSuccess sample.env
          "198.51.100.7".toList "203.0.113.42".toList "home.example.com".toList = ([], none) :=
  ⟨rfl,
   (C10_suppressed_sends (sample.telegramClient "text".toList true false true) sample.env
      "198.51.100.7".toList "203.0.113.42".toList "home.example.com".toList [] []).2.1 rfl⟩

/-! ### Provider envelopes with `success=false` -/

/-- The message of the first entry appears in the `%v` text of a non-empty
error list. -/
theorem message_infix_formatErrors (first : cloudflare.APIError)
    (rest : List cloudflare.APIError) :
    first.Message <:+: cloudflare.formatErrors (first :: rest) := by
  cases rest with
  | nil =>
    refine ⟨"[".toList ++ ("\x7b".toList ++ config.formatInt first.Code ++ " ".toList),
      "\x7d".toList ++ "]".toList, ?_⟩
    simp [cloudflare.formatErrors, cloudflare.formatSlice, cloudflare.formatError,
      List.intercalate, List.intersperse]
  | cons second more =>
    refine ⟨"[".toList ++ ("\x7b".toList ++ config.formatInt first.Code ++ " ".toList),
      "\x7d".toList ++ (" ".toList ++
        " ".toList.intercalate ((second :: more).map cloudflare.formatError)) ++ "]".toList, ?_⟩
    simp [cloudflare.formatErrors, cloudflare.formatSlice, cloudflare.formatError,
      List.intercalate, List.intersperse]

/-- A list that is not of length zero has a first entry. -/
theorem errors_length_pos (first : cloudflare.APIError) (rest : List cloudflare.APIError) :
    (first :: rest).length > 0 := by
  simp

/-- `GetZones` on an envelope with `success=false`. -/
theorem GetZones_failed_envelope (status : Int) (body : Str)
    (unmarshal : Str → Except Str cloudflare.ZoneResponse) (env : cloudflare.ZoneResponse)
    (hparse : unmarshal body = .ok env) (hfail : env.Success = false) :
    ∃ e, cloudflare.GetZones (.response status body) unmarshal = .error e ∧
      ∀ first rest, env.Errors = first :: rest →
        e = .api env.Errors ∧ first.Message <:+: e.text := by
  unfold cloudflare.GetZones
  simp only [hparse, hfail, Bool.not_false, if_true]
  cases herr : env.Errors with
  | nil =>
    refine ⟨.zonesCallFailed status, by simp, ?_⟩
    intro first rest h
    cases h
  | cons first rest =>
    refine ⟨.api (first :: rest), by simp, ?_⟩
    intro f r h
    obtain ⟨hf, _⟩ := List.cons.inj h
    subst hf
    refine ⟨rfl, ?_⟩
    exact (message_infix_formatErrors _ _).trans (List.suffix_append _ _).isInfix

/-- `TestConnection` on an envelope with `success=false`. -/
theorem TestConnection_failed_envelope (status : Int) (body : Str)
    (unmarshal : Str → Except Str cloudflare.TokenVerifyResponse)
    (env : cloudflare.TokenVerifyResponse)
    (hparse : unmarshal body = .ok env) (hfail : env.Success = false) :
    ∃ e, cloudflare.TestConnection (.response status body) unmarshal = .error e ∧
      ∀ first rest, env.Errors = first :: rest →
        e = .tokenInvalid env.Errors ∧ first.Message <:+: e.text := by
  unfold cloudflare.TestConnection
  simp only [hparse, hfail, Bool.not_false, if_true]
  cases herr : env.Errors with
  | nil =>
    refine ⟨.tokenVerifyFailed, by simp, ?_⟩
    intro first rest h
    cases h
  | cons first rest =>
    refine ⟨.tokenInvalid (first :: rest), by simp, ?_⟩
    intro f r h
    obtain ⟨hf, _⟩ := List.cons.inj h
    subst hf
    refine ⟨rfl, ?_⟩
    exact (message_infix_formatErrors _ _).trans (List.suffix_append _ _).isInfix

/-- `GetDNSRecord` on a record envelope with `success=false`. -/
theorem GetDNSRecord_failed_envelope (getZones : Except cloudflare.ClientError (List cloudflare.Zone))
    (transport : Str → cloudflare.HttpResult)
    (unmarshal : Str → Except Str cloudflare.DNSRecordResponse)
    (recordName recordType zoneID : Str) (status : Int) (body : Str)
    (env : cloudflare.DNSRecordResponse)
    (hzone : cloudflare.AutoDiscoverZoneID getZones recordName = .ok zoneID)
    (hresp : transport (cloudflare.recordURL zoneID recordType recordName) =
      .response status body)
    (hparse : unmarshal body = .ok env) (hfail : env.Success = false) :
    ∃ e, cloudflare.GetDNSRecord getZones transport unmarshal recordName recordType = .error e ∧
      ∀ first rest, env.Errors = first :: rest →
        e = .api env.Errors ∧ first.Message <:+: e.text := by
  unfold cloudflare.GetDNSRecord
  simp only [hzone, hresp, hparse, hfail, Bool.not_false, if_true]
  cases herr : env.Errors with
  | nil =>
    refine ⟨.recordCallFailed, by simp, ?_⟩
    intro first rest h
    cases h
  | cons first rest =>
    refine ⟨.api (first :: rest), by simp, ?_⟩
    intro f r h
    obtain ⟨hf, _⟩ := List.cons.inj h
    subst hf
    refine ⟨rfl, ?_⟩
    exact (message_infix_formatErrors _ _).trans (List.suffix_append _ _).isInfix

/-- `UpdateDNSRecord` on an update envelope with `success=false`. -/
theorem UpdateDNSRecord_failed_envelope
    (getZones : Except cloudflare.ClientError (List cloudflare.Zone))
    (transport : cloudflare.PutRequest → cloudflare.HttpResult)
    (unmarshal : Str → Except Str cloudflare.APIResponse)
    (recordID : Str) (record : config.DNSRecord) (ip zoneID : Str) (status : Int) (body : Str)
    (env : cloudflare.APIResponse)
    (hzone : cloudflare.AutoDiscoverZoneID getZones record.Name = .ok zoneID)
    (hresp : transport { url := cloudflare.updateURL zoneID recordID,
                         body := cloudflare.updateReq record ip } = .response status body)
    (hparse : unmarshal body = .ok env) (hfail : env.Success = false) :
    ∃ e, (cloudflare.UpdateDNSRecord getZones transport unmarshal recordID record ip).2 =
        .error e ∧
      ∀ first rest, env.Errors = first :: rest →
        e = .updateFailed first.Message ∧ first.Message <:+: e.text := by
  unfold cloudflare.UpdateDNSRecord
  simp only [hzone, hresp, hparse, hfail, Bool.not_false, if_true]
  cases herr : env.Errors with
  | nil =>
    refine ⟨.apiCallFailed, rfl, ?_⟩
    intro first rest h
    cases h
  | cons first rest =>
    refine ⟨.updateFailed first.Message, rfl, ?_⟩
    intro f r h
    obtain ⟨hf, _⟩ := List.cons.inj h
    subst hf
    exact ⟨rfl, (List.suffix_append _ _).isInfix⟩

/-- When the zone listing fails, zone discovery returns the listing error
wrapped, and its text ends with the text of the listing error. -/
theorem AutoDiscoverZoneID_listing_failed (err : cloudflare.ClientError) (name : Str)
    (hname : name ≠ []) :
    cloudflare.AutoDiscoverZoneID (.error err) name = .error (.getZonesFailed err) ∧
      err.text <:+ (cloudflare.ClientError.getZonesFailed err).text := by
  have hne := extractZoneNameFromDNS_ne_nil name hname
  constructor
  · unfold cloudflare.AutoDiscoverZoneID
    dsimp only
    rw [if_neg hne]
  · exact List.suffix_append _ _

/-- C12: when the response envelope parses with `success=false`, each of
`GetZones`, `TestConnection`, `GetDNSRecord` and `UpdateDNSRecord` returns
an error, whatever the HTTP status and the result field, and when the error
list is non-empty the message of its first entry appears in the text of the
returned error; the same holds for `GetDNSRecord` and `UpdateDNSRecord`
when it is their zone listing that has `success=false`. -/
theorem C12_failed_envelope_is_error :
    (∀ (status : Int) (body : Str) (unmarshal : Str → Except Str cloudflare.ZoneResponse)
        (env : cloudflare.ZoneResponse),
      unmarshal body = .ok env → env.Success = false →
      ∃ e, cloudflare.GetZones (.response status body) unmarshal = .error e ∧
        ∀ first rest, env.Errors = first :: rest → first.Message <:+: e.text) ∧
    (∀ (status : Int) (body : Str)
        (unmarshal : Str → Except Str cloudflare.TokenVerifyResponse)
        (env : cloudflare.TokenVerifyResponse),
      unmarshal body = .ok env → env.Success = false →
      ∃ e, cloudflare.TestConnection (.response status body) unmarshal = .error e ∧
        ∀ first rest, env.Errors = first :: rest → first.Message <:+: e.text) ∧
    (∀ (getZones : Except cloudflare.ClientError (List cloudflare.Zone))
        (transport : Str → cloudflare.HttpResult)
        (unmarshal : Str → Except Str cloudflare.DNSRecordResponse)
        (recordName recordType zoneID : Str) (status : Int) (body : Str)
        (env : cloudflare.DNSRecordResponse),
      cloudflare.AutoDiscoverZoneID getZones recordName = .ok zoneID →
      transport (cloudflare.recordURL zoneID recordType recordName) = .response status body →
      unmarshal body = .ok env → env.Success = false →
      ∃ e, cloudflare.GetDNSRecord getZones transport unmarshal recordName recordType =
          .error e ∧
        ∀ first rest, env.Errors = first :: rest → first.Message <:+: e.text) ∧
    (∀ (getZones : Except cloudflare.ClientError (List cloudflare.Zone))
        (transport : cloudflare.PutRequest → cloudflare.HttpResult)
        (unmarshal : Str → Except Str cloudflare.APIResponse)
        (recordID : Str) (record : config.DNSRecord) (ip zoneID : Str) (status : Int)
        (body : Str) (env : cloudflare.APIResponse),
      cloudflare.AutoDiscoverZoneID getZones record.Name = .ok zoneID →
      transport { url := cloudflare.updateURL zoneID recordID,
                  body := cloudflare.updateReq record ip } = .response status body →
      unmarshal body = .ok env → env.Success = false →
      ∃ e, (cloudflare.UpdateDNSRecord getZones transport unmarshal recordID record ip).2 =
          .error e ∧
        ∀ first rest, env.Errors = first :: rest → first.Message <:+: e.text) ∧
    (∀ (status : Int) (body : Str) (decode : Str → Except Str cloudflare.ZoneResponse)
        (env : cloudflare.ZoneResponse) (transport : Str → cloudflare.HttpResult)
        (unmarshal : Str → Except Str cloudflare.DNSRecordResponse)
        (recordName recordType : Str),
      decode body = .ok env → env.Success = false → recordName ≠ [] →
      ∃ e, cloudflare.GetDNSRecord (cloudflare.GetZones (.response status body) decode)
          transport unmarshal recordName recordType = .error e ∧
        ∀ first rest, env.Errors = first :: rest → first.Message <:+: e.text) ∧
    (∀ (status : Int) (body : Str) (decode : Str → Except Str cloudflare.ZoneResponse)
        (env : cloudflare.ZoneResponse)
        (transport : cloudflare.PutRequest → cloudflare.HttpResult)
        (unmarshal : Str → Except Str cloudflare.APIResponse)
        (recordID : Str) (record : config.DNSRecord) (ip : Str),
      decode body = .ok env → env.Success = false → record.Name ≠ [] →
      ∃ e, cloudflare.UpdateDNSRecord (cloudflare.GetZones (.response status body) decode)
          transport unmarshal recordID record ip = ([], .error e) ∧
        ∀ first rest, env.Errors = first :: rest → first.Message <:+: e.text) := by
  refine ⟨?_, ?_, ?_, ?_, ?_, ?_⟩
  · intro status body unmarshal env hparse hfail
    obtain ⟨e, he, hmsg⟩ := GetZones_failed_envelope status body unmarshal env hparse hfail
    exact ⟨e, he, fun first rest h => (hmsg first rest h).2⟩
  · intro status body unmarshal env hparse hfail
    obtain ⟨e, he, hmsg⟩ := TestConnection_failed_envelope status body unmarshal env hparse hfail
    exact ⟨e, he, fun first rest h => (hmsg first rest h).2⟩
  · intro getZones transport unmarshal recordName recordType zoneID status body env
      hzone hresp hparse hfail
    obtain ⟨e, he, hmsg⟩ := GetDNSRecord_failed_envelope getZones transport unmarshal
      recordName recordType zoneID status body env hzone hresp hparse hfail
    exact ⟨e, he, fun first rest h => (hmsg first rest h).2⟩
  · intro getZones transport unmarshal recordID record ip zoneID status body env
      hzone hresp hparse hfail
    obtain ⟨e, he, hmsg⟩ := UpdateDNSRecord_failed_envelope getZones transport unmarshal
      recordID record ip zoneID status body env hzone hresp hparse hfail
    exact ⟨e, he, fun first rest h => (hmsg first rest h).2⟩
  · intro status body decode env transport unmarshal recordName recordType hparse hfail hname
    obtain ⟨e, he, hmsg⟩ := GetZones_failed_envelope status body decode env hparse hfail
    obtain ⟨hauto, hsuffix⟩ := AutoDiscoverZoneID_listing_failed e recordName hname
    refine ⟨.getZonesFailed e, ?_, ?_⟩
    · unfold cloudflare.GetDNSRecord
      rw [he, hauto]
    · intro first rest h
      exact (hmsg first rest h).2.trans hsuffix.isInfix
  · intro status body decode env transport unmarshal recordID record ip hparse hfail hname
    obtain ⟨e, he, hmsg⟩ := GetZones_failed_envelope status body decode env hparse hfail
    obtain ⟨hauto, hsuffix⟩ := AutoDiscoverZoneID_listing_failed e record.Name hname
    refine ⟨.getZonesFailed e, ?_, ?_⟩
    · unfold cloudflare.UpdateDNSRecord
      rw [he, hauto]
    · intro first rest h
      exact (hmsg first rest h).2.trans hsuffix.isInfix

set_option maxRecDepth 20000 in
/-- Witness for C12: a zone listing answered with status 200 and an
envelope with `success=false`, a zone in its result field and one error
entry gives an error whose text contains `Invalid access token`. -/
theorem C12_failed_envelope_is_error_witness :
    sample.failedZones [] = .ok { Result := sample.zones, Success := false,
                                  Errors := [sample.tokenError] } ∧
      ∃ e, cloudflare.GetZones (.response 200 []) sample.failedZones = .error e ∧
        "Invalid access token".toList <:+: e.text :=
  ⟨rfl,
   match C12_failed_envelope_is_error.1 200 [] sample.failedZones
      { Result := sample.zones, Success := false, Errors := [sample.tokenError] } rfl rfl with
   | ⟨e, he, hmsg⟩ => ⟨e, he, hmsg sample.tokenError [] rfl⟩⟩

/-! ### Delivery errors -/

set_option maxRecDepth 20000 in
/-- C11, the code at the failing input: in generic mode a response with
status 500 and the body `quota exceeded` gives an error whose text is only
the status line and does not contain the body, while in telegram mode the
same response gives an error whose text contains the body. -/
theorem C11_generic_error_omits_body :
    (sample.genericClient.sendGenericMessage sample.failingEnv
        "t".toList "m".toList "d".toList "info".toList).2 = some (.genericStatus 500) ∧
      (webhook.SendError.genericStatus 500).text = "webhook 調用失敗，狀態碼: 500".toList ∧
      ¬ ("quota exceeded".toList <:+: (webhook.SendError.genericStatus 500).text) ∧
      ((sample.telegramClient "text".toList true true true).sendTelegramMessage
        sample.failingEnv "t".toList "m".toList "d".toList "info".toList).2 =
        some (.telegramStatus 500 "quota exceeded".toList) ∧
      "quota exceeded".toList <:+:
        (webhook.SendError.telegramStatus 500 "quota exceeded".toList).text := by
  refine ⟨rfl, by decide, by decide, rfl, ?_⟩
  exact (List.suffix_append _ _).isInfix

/-! ### Environment overlay and loading -/

/-- C13: after `loadFromEnv`, the API token, the webhook URL and the chat
ID are the values of `CF_API_TOKEN`, `WEBHOOK_URL` and `WEBHOOK_CHAT_ID`
when the variable is non-empty and the values of the document otherwise,
and no other field than `webhook.enabled` is changed. -/
theorem C13_env_overlay (c : config.Config) (h : config.Host) :
    (c.loadFromEnv h).Cloudflare.APIToken =
      (if h.getenv "CF_API_TOKEN".toList ≠ [] then h.getenv "CF_API_TOKEN".toList
       else c.Cloudflare.APIToken) ∧
    (c.loadFromEnv h).Webhook.URL =
      (if h.getenv "WEBHOOK_URL".toList ≠ [] then h.getenv "WEBHOOK_URL".toList
       else c.Webhook.URL) ∧
    (c.loadFromEnv h).Webhook.ChatID =
      (if h.getenv "WEBHOOK_CHAT_ID".toList ≠ [] then h.getenv "WEBHOOK_CHAT_ID".toList
       else c.Webhook.ChatID) ∧
    (c.loadFromEnv h).Global = c.Global ∧
    (c.loadFromEnv h).DNSRecords = c.DNSRecords ∧
    (c.loadFromEnv h).Webhook.Type_ = c.Webhook.Type_ ∧
    (c.loadFromEnv h).Webhook.Template = c.Webhook.Template ∧
    (c.loadFromEnv h).Webhook.OnSuccess = c.Webhook.OnSuccess ∧
    (c.loadFromEnv h).Webhook.OnFailure = c.Webhook.OnFailure ∧
    (c.loadFromEnv h).ConfigPath = c.ConfigPath ∧
    (c.loadFromEnv h).LastModified = c.LastModified := by
  unfold config.Config.loadFromEnv
  dsimp only
  refine ⟨?_, ?_, ?_, ?_, ?_, ?_, ?_, ?_, ?_, ?_, ?_⟩ <;> split_ifs <;> rfl

/-- The overlay does not touch the global section. -/
theorem loadFromEnv_global (c : config.Config) (h : config.Host) :
    (c.loadFromEnv h).Global = c.Global := by
  unfold config.Config.loadFromEnv
  dsimp only
  split_ifs <;> rfl

/-- The `enabled` flag after `loadFromEnv`. -/
theorem loadFromEnv_enabled (c : config.Config) (h : config.Host) :
    (c.loadFromEnv h).Webhook.Enabled =
      (if h.getenv "WEBHOOK_URL".toList ≠ [] then true else c.Webhook.Enabled) := by
  unfold config.Config.loadFromEnv
  dsimp only
  cases hen : c.Webhook.Enabled <;> split_ifs <;> simp_all

/-- A successful `LoadConfig` decodes the document and overlays the
environment on it after filling in the three defaults. -/
theorem LoadConfig_ok (h : config.Host) (path data : Str) (doc : config.Config)
    (modTime : Int) (hread : h.readFile path = .ok data)
    (hparse : h.yamlUnmarshal data = .ok doc) (hstat : h.stat path = .ok modTime) :
    ∃ base : config.Config,
      config.LoadConfig h path = .ok (base.loadFromEnv h) ∧
      base.Webhook.Enabled = doc.Webhook.Enabled ∧
      base.Global.CheckInterval =
        (if doc.Global.CheckInterval = 0 then 300 else doc.Global.CheckInterval) := by
  unfold config.LoadConfig
  simp only [hread, hparse, hstat]
  refine ⟨_, rfl, ?_, ?_⟩
  · split_ifs <;> rfl
  · split_ifs <;> simp_all

/-- C14: when `WEBHOOK_URL` is non-empty, `webhook.enabled` is true after
the overlay and after `LoadConfig`, even when the document sets it to
false; when `WEBHOOK_URL` is empty, `webhook.enabled` keeps the value of the
document. -/
theorem C14_webhook_url_enables (h : config.Host) :
    (∀ c : config.Config, h.getenv "WEBHOOK_URL".toList ≠ [] →
      (c.loadFromEnv h).Webhook.Enabled = true) ∧
    (∀ c : config.Config, h.getenv "WEBHOOK_URL".toList = [] →
      (c.loadFromEnv h).Webhook.Enabled = c.Webhook.Enabled) ∧
    (∀ (path data : Str) (doc : config.Config) (modTime : Int),
      h.readFile path = .ok data → h.yamlUnmarshal data = .ok doc →
      h.stat path = .ok modTime →
      ∃ cfg, config.LoadConfig h path = .ok cfg ∧
        (h.getenv "WEBHOOK_URL".toList ≠ [] → cfg.Webhook.Enabled = true) ∧
        (h.getenv "WEBHOOK_URL".toList = [] →
          cfg.Webhook.Enabled = doc.Webhook.Enabled)) := by
  refine ⟨?_, ?_, ?_⟩
  · intro c hset
    rw [loadFromEnv_enabled, if_pos hset]
  · intro c hunset
    rw [loadFromEnv_enabled, if_neg (not_not.mpr hunset)]
  · intro path data doc modTime hread hparse hstat
    obtain ⟨base, hload, hen, _⟩ := LoadConfig_ok h path data doc modTime hread hparse hstat
    refine ⟨_, hload, ?_, ?_⟩
    · intro hset
      rw [loadFromEnv_enabled, if_pos hset]
    · intro hunset
      rw [loadFromEnv_enabled, if_neg (not_not.mpr hunset), hen]

set_option maxRecDepth 20000 in
/-- Witness for C14: a document with `webhook.enabled` false, loaded with
`WEBHOOK_URL` set, has `webhook.enabled` true. -/
theorem C14_webhook_url_enables_witness :
    (sample.hostWithInterval 60 sample.webhookEnv).getenv "WEBHOOK_URL".toList ≠ [] ∧
      (sample.documentWithInterval 60).Webhook.Enabled = false ∧
      ((sample.documentWithInterval 60).loadFromEnv
        (sample.hostWithInterval 60 sample.webhookEnv)).Webhook.Enabled = true :=
  ⟨by decide, rfl,
   (C14_webhook_url_enables (sample.hostWithInterval 60 sample.webhookEnv)).1
     (sample.documentWithInterval 60) (by decide)⟩

/-- C16, as amended: for a document that parses, the check interval of the
configuration returned by `LoadConfig` is 300 when the document leaves it
at 0 (not set), and is the value of the document otherwise, negative values
included. -/
theorem C16_check_interval_default (h : config.Host) (path data : Str) (doc : config.Config)
    (modTime : Int) (hread : h.readFile path = .ok data)
    (hparse : h.yamlUnmarshal data = .ok doc) (hstat : h.stat path = .ok modTime) :
    ∃ cfg, config.LoadConfig h path = .ok cfg ∧
      (doc.Global.CheckInterval = 0 → cfg.Global.CheckInterval = 300) ∧
      (doc.Global.CheckInterval ≠ 0 → cfg.Global.CheckInterval = doc.Global.CheckInterval) := by
  obtain ⟨base, hload, _, hint⟩ := LoadConfig_ok h path data doc modTime hread hparse hstat
  have hglobal : (base.loadFromEnv h).Global.CheckInterval = base.Global.CheckInterval := by
    rw [loadFromEnv_global]
  refine ⟨_, hload, ?_, ?_⟩
  · intro hzero
    rw [hglobal, hint, if_pos hzero]
  · intro hnz
    rw [hglobal, hint, if_neg hnz]

set_option maxRecDepth 20000 in
/-- Witness for C16 as amended: a document that leaves the check interval
at 0 is loaded with the interval 300. -/
theorem C16_check_interval_default_witness :
    ∃ cfg, config.LoadConfig (sample.hostWithInterval 0 sample.noEnv) "config.yaml".toList =
        .ok cfg ∧ cfg.Global.CheckInterval = 300 :=
  match C16_check_interval_default (sample.hostWithInterval 0 sample.noEnv)
      "config.yaml".toList [] (sample.documentWithInterval 0) 0 rfl rfl rfl with
  | ⟨cfg, hload, hzero, _⟩ => ⟨cfg, hload, hzero rfl⟩

set_option maxRecDepth 20000 in
/-- Counterexample to C16 as stated: a document that sets the check
interval to -5 parses and is loaded with the interval -5, which is below
1. -/
theorem C16_negative_interval_kept :
    ∃ cfg, config.LoadConfig (sample.hostWithInterval (-5) sample.noEnv)
        "config.yaml".toList = .ok cfg ∧
      cfg.Global.CheckInterval = -5 ∧ ¬ (1 ≤ cfg.Global.CheckInterval) :=
  ⟨_, rfl, rfl, by decide⟩

/-- C17, as amended: when the file of the configuration in use cannot be
loaded, `Reload` returns the error and leaves the configuration unchanged;
when it loads, `Reload` replaces the configuration by the new one and
returns no error, whether or not the new one passes `Validate`. -/
theorem C17_reload_replaces_on_load (c : config.Config) (h : config.Host) :
    (∀ err, config.LoadConfig h c.ConfigPath = .error err → c.Reload h = (c, some err)) ∧
    (∀ cfg, config.LoadConfig h c.ConfigPath = .ok cfg → c.Reload h = (cfg, none)) := by
  constructor
  · intro err hload
    unfold config.Config.Reload
    rw [hload]
  · intro cfg hload
    unfold config.Config.Reload
    rw [hload]

set_option maxRecDepth 20000 in
/-- Witness for C17 as amended: when the file cannot be read any more, the
configuration in use is kept and the read error is returned. -/
theorem C17_reload_replaces_on_load_witness :
    config.LoadConfig sample.unreadableHost (sample.configWithTTL 300).ConfigPath =
        .error (.readFailed "no such file".toList) ∧
      (sample.configWithTTL 300).Reload sample.unreadableHost =
        (sample.configWithTTL 300, some (.readFailed "no such file".toList)) :=
  ⟨rfl, (C17_reload_replaces_on_load (sample.configWithTTL 300) sample.unreadableHost).1
    (.readFailed "no such file".toList) rfl⟩

set_option maxRecDepth 20000 in
/-- Counterexample to C17 as stated: the configuration in use is valid, its
file is replaced by an empty document, which loads but fails `Validate`;
`Reload` returns no error and the configuration in use becomes the invalid
one. -/
theorem C17_reload_skips_validation :
    (sample.configWithTTL 300).Validate = none ∧
      sample.emptyLoaded.Validate ≠ none ∧
      (sample.configWithTTL 300).Reload sample.emptyHost = (sample.emptyLoaded, none) ∧
      sample.emptyLoaded ≠ sample.configWithTTL 300 :=
  ⟨by decide, by decide, rfl, by decide⟩

/-! ### The telegram message for each template -/

/-- The message built with the template `text`. -/
theorem tgMessage_text (w : webhook.WebhookClient) (title message details : Str)
    (htemplate : w.template = "text".toList) :
    w.tgMessage title message details =
      { ChatID := w.chatID
        Text := title ++ "\n".toList ++ message ++ "\n\n".toList ++ details
        ParseMode := [] } := by
  have h1 : ¬ w.template = "html".toList := by
    rw [htemplate]
    decide
  have h2 : ¬ (w.template = "markdown".toList ∨ w.template = "markdownv2".toList) := by
    rw [htemplate]
    decide
  unfold webhook.WebhookClient.tgMessage
  rw [if_neg h1, if_neg h2]

/-- The chat ID of the built message is the configured one. -/
theorem tgMessage_chatID (w : webhook.WebhookClient) (title message details : Str) :
    (w.tgMessage title message details).ChatID = w.chatID := by
  unfold webhook.WebhookClient.tgMessage
  split_ifs <;> rfl

/-- C18: in telegram mode the message built for a title, a message and
details has the configured chat ID; with the template `text` it has an empty
`parse_mode`, which is left out of the JSON, and the unescaped body title,
newline, message, blank line, details; with `html` it has `parse_mode`
`HTML`, the escaped title in `<b>…</b>` and the escaped details in
`<pre>…</pre>`; with `markdown` it has `parse_mode` `MarkdownV2`, the
escaped title in `*…*` and the escaped details in a fenced code block. -/
theorem C18_telegram_templates (w : webhook.WebhookClient) (title message details : Str) :
    (w.tgMessage title message details).ChatID = w.chatID ∧
    (w.template = "text".toList →
      w.tgMessage title message details =
        { ChatID := w.chatID
          Text := title ++ "\n".toList ++ message ++ "\n\n".toList ++ details
          ParseMode := [] } ∧
      (w.tgMessage title message details).jsonMembers =
        [("chat_id".toList, w.chatID),
         ("text".toList, title ++ "\n".toList ++ message ++ "\n\n".toList ++ details)]) ∧
    (w.template = "html".toList →
      w.tgMessage title message details =
        { ChatID := w.chatID
          Text := "<b>".toList ++ webhook.escapeHTML title ++ "</b>\n".toList ++
            webhook.escapeHTML message ++ "\n\n<pre>".toList ++
            webhook.escapeHTML details ++ "</pre>".toList
          ParseMode := "HTML".toList }) ∧
    (w.template = "markdown".toList →
      w.tgMessage title message details =
        { ChatID := w.chatID
          Text := "*".toList ++ webhook.escapeMarkdown title ++ "*\n".toList ++
            webhook.escapeMarkdown message ++ "\n\n```\n".toList ++
            webhook.escapeMarkdown details ++ "\n```".toList
          ParseMode := "MarkdownV2".toList }) := by
  refine ⟨tgMessage_chatID w title message details, ?_, ?_, ?_⟩
  · intro htemplate
    have hmsg := tgMessage_text w title message details htemplate
    refine ⟨hmsg, ?_⟩
    rw [hmsg]
    rfl
  · intro htemplate
    exact tgMessage_html w title message details htemplate
  · intro htemplate
    exact tgMessage_markdown w title message details htemplate

set_option maxRecDepth 20000 in
/-- Witness for C18: with the template `text` the JSON body has the
members `chat_id` and `text` only. -/
theorem C18_telegram_templates_witness :
    (sample.telegramClient "text".toList true true true).template = "text".toList ∧
      ((sample.telegramClient "text".toList true true true).tgMessage
          "T".toList "a_b".toList "d.e".toList).jsonMembers =
        [("chat_id".toList, "42".toList), ("text".toList, "T\na_b\n\nd.e".toList)] :=
  ⟨rfl,
   ((C18_telegram_templates (sample.telegramClient "text".toList true true true)
      "T".toList "a_b".toList "d.e".toList).2.1 rfl).2⟩

/-! ### A record at the zone apex -/

set_option maxRecDepth 20000 in
/-- C20, the code at the failing input: with the zone `example.co.uk`
listed, the record `example.co.uk` equals the apex of that zone, yet
`AutoDiscoverZoneID` fails with the not-found error for the target
`co.uk`. -/
theorem C20_apex_record_not_found :
    (∃ z ∈ sample.ukZones, spec.CaseInsensitiveEq z.Name "example.co.uk".toList) ∧
      cloudflare.AutoDiscoverZoneID (.ok sample.ukZones) "example.co.uk".toList =
        .error (.zoneNotFound "co.uk".toList ["example.co.uk".toList]) :=
  ⟨⟨_, List.mem_singleton.mpr rfl, rfl⟩, rfl⟩

/-! ### The `.env` file -/

/-- Splitting in at most two pieces cuts at the first separator, if any. -/
theorem SplitN_two (s : Str) (sep : Char) :
    strings.SplitN s sep 2 =
      if sep ∈ s then
        [s.takeWhile (fun c => c ≠ sep), (s.dropWhile (fun c => c ≠ sep)).drop 1]
      else [s] := by
  induction s with
  | nil => simp [strings.SplitN]
  | cons c cs ih =>
    by_cases hc : c = sep
    · subst hc
      simp [strings.SplitN]
    · have hne : ¬ sep = c := fun h => hc h.symm
      simp only [strings.SplitN, if_neg hc, ih]
      by_cases hmem : sep ∈ cs
      · simp [hmem, hc, hne]
      · simp [hmem, hc, hne]

/-- Removing the first and the last character, as the code and as the
specification write it. -/
theorem drop_take_eq_tail_dropLast (value : Str) :
    (value.drop 1).take (value.length - 2) = value.tail.dropLast := by
  rw [List.dropLast_eq_take, List.drop_one, List.length_tail]
  congr 1

/-- The quote handling of `loadDotEnv` is the unquoting of the
specification. -/
theorem unquote_eq (value : Str) :
    (if value.length > 1 ∧
        ((value.head? = some config.doubleQuote ∧ value.getLast? = some config.doubleQuote) ∨
         (value.head? = some config.singleQuote ∧ value.getLast? = some config.singleQuote)) then
      (value.drop 1).take (value.length - 2)
    else value) = spec.unquote value := by
  unfold spec.unquote
  rw [drop_take_eq_tail_dropLast]
  have hcond : (value.length > 1 ∧
        ((value.head? = some config.doubleQuote ∧ value.getLast? = some config.doubleQuote) ∨
         (value.head? = some config.singleQuote ∧ value.getLast? = some config.singleQuote))) ↔
      (2 ≤ value.length ∧
        [Char.ofNat 34, Char.ofNat 39].any
          (fun q => value.head? = some q ∧ value.getLast? = some q) = true) := by
    simp [config.doubleQuote, config.singleQuote]
    intro _
    omega
  by_cases h : value.length > 1 ∧
        ((value.head? = some config.doubleQuote ∧ value.getLast? = some config.doubleQuote) ∨
         (value.head? = some config.singleQuote ∧ value.getLast? = some config.singleQuote))
  · rw [if_pos h, if_pos (hcond.mp h)]
  · rw [if_neg h, if_neg (fun h2 => h (hcond.mpr h2))]

/-- On a non-empty line, the prefix test for `#` looks at the first
character. -/
theorem hasPrefix_hash (line : Str) (hline : line ≠ []) :
    strings.HasPrefix line "#".toList = true ↔ line.head? = some '#' := by
  cases line with
  | nil => exact absurd rfl hline
  | cons c cs =>
    simp [strings.HasPrefix, List.isPrefixOf]
    constructor
    · intro h; exact h.symm
    · intro h; exact h.symm

/-- The loop body of `loadDotEnv` sets the binding of the specification. -/
theorem dotEnvLine_eq_binding (line : Str) :
    config.dotEnvLine line = spec.dotEnvBinding line := by
  unfold config.dotEnvLine spec.dotEnvBinding
  dsimp only
  by_cases hempty : strings.TrimSpace line = []
  · rw [if_pos (Or.inl hempty), if_pos hempty]
  · rw [if_neg hempty]
    by_cases hhash : (strings.TrimSpace line).head? = some '#'
    · rw [if_pos (Or.inr ((hasPrefix_hash _ hempty).mpr hhash)), if_pos hhash]
    · have hno : ¬ (strings.TrimSpace line = [] ∨
          strings.HasPrefix (strings.TrimSpace line) "#".toList = true) := by
        rintro (h | h)
        · exact hempty h
        · exact hhash ((hasPrefix_hash _ hempty).mp h)
      rw [if_neg hno, if_neg hhash, SplitN_two]
      by_cases hmem : '=' ∈ strings.TrimSpace line
      · rw [if_pos hmem, if_neg (not_not.mpr hmem)]
        simp only [List.length_cons, List.length_nil, List.getD_cons_zero, List.getD_cons_succ]
        rw [if_pos trivial, unquote_eq]
      · rw [if_neg hmem, if_pos hmem]
        simp

/-- Appending the call of each line is collecting the bindings in order. -/
theorem foldl_calls_eq_filterMap (f : Str → Option (Str × Str)) (lines : List Str)
    (acc : List (Str × Str)) :
    lines.foldl (fun calls line =>
        match f line with
        | some call => calls ++ [call]
        | none => calls) acc = acc ++ lines.filterMap f := by
  induction lines generalizing acc with
  | nil => simp
  | cons l t ih =>
    rw [List.foldl_cons, ih]
    cases hl : f l with
    | none => simp [List.filterMap_cons, hl]
    | some call => simp [List.filterMap_cons, hl]

/-- The calls made for a file content are the bindings of the
specification. -/
theorem dotEnvCalls_eq_bindings (content : Str) :
    config.dotEnvCalls content = spec.dotEnvBindings content := by
  unfold config.dotEnvCalls spec.dotEnvBindings
  rw [foldl_calls_eq_filterMap, List.nil_append]
  congr 1
  funext line
  exact dotEnvLine_eq_binding line

/-- A character of a trimmed text is a character of the text. -/
theorem mem_of_mem_TrimSpace (s : Str) (x : Char) (hx : x ∈ strings.TrimSpace s) : x ∈ s := by
  unfold strings.TrimSpace at hx
  have h1 := List.mem_reverse.mp hx
  have h2 := (List.dropWhile_suffix strings.isSpace).subset h1
  have h3 := List.mem_reverse.mp h2
  exact (List.dropWhile_suffix strings.isSpace).subset h3

/-- The key of the binding of a line has no `=`. -/
theorem dotEnvBinding_key_no_equals (line : Str) (binding : Str × Str)
    (h : spec.dotEnvBinding line = some binding) : '=' ∉ binding.1 := by
  unfold spec.dotEnvBinding at h
  dsimp only at h
  split_ifs at h
  obtain rfl := Option.some.inj h
  intro hmem
  have htake := mem_of_mem_TrimSpace _ _ hmem
  have hp := List.mem_takeWhile_imp htake
  simp at hp

/-- For the binding of a line, the call `os.Setenv` succeeds exactly when
the binding can be set. -/
theorem setenvFails_binding (line : Str) (binding : Str × Str)
    (h : spec.dotEnvBinding line = some binding) :
    (!os.setenvFails binding.1 binding.2) = spec.settable binding := by
  have hkey := dotEnvBinding_key_no_equals line binding h
  unfold os.setenvFails spec.settable
  simp [hkey]

/-- The bindings set for a file content are the bindings of its lines that
can be set. -/
theorem dotEnvSets_eq (content : Str) :
    config.dotEnvSets content =
      ((strings.Split content '\n').filterMap spec.dotEnvBinding).filter spec.settable := by
  unfold config.dotEnvSets
  rw [dotEnvCalls_eq_bindings]
  unfold spec.dotEnvBindings
  apply List.filter_congr
  intro binding hmem
  obtain ⟨line, _, hline⟩ := List.mem_filterMap.mp hmem
  exact setenvFails_binding line binding hline

set_option maxRecDepth 20000 in
/-- C15, as amended: for every content of the `.env` file, `loadDotEnv`
calls `os.Setenv`, line by line in order, with the bindings of the
specification: nothing for a line that is blank or starts with `#` after
trimming, nothing for a line without `=`, and for any other line the
trimmed text before the first `=` as key and the trimmed text after it as
value, with one pair of surrounding quotes removed when the value has at
least two characters and starts and ends with the same quote character;
mismatched quotes and a lone quote are kept.  Such a call sets its binding
when the key is not empty and neither the key nor the value has a NUL byte;
otherwise it fails, the error is ignored and nothing is set. -/
theorem C15_dotenv_bindings (content : Str) :
    config.dotEnvCalls content =
      (strings.Split content '\n').filterMap spec.dotEnvBinding ∧
    config.dotEnvSets content =
      ((strings.Split content '\n').filterMap spec.dotEnvBinding).filter
        (fun binding => binding.1 ≠ [] ∧ os.nul ∉ binding.1 ∧ os.nul ∉ binding.2) ∧
    (∀ (h : config.Host) (modTime : Int),
      h.stat ".env".toList = .ok modTime → h.readFile ".env".toList = .ok content →
      config.loadDotEnvSets h =
        ((strings.Split content '\n').filterMap spec.dotEnvBinding).filter
          (fun binding => binding.1 ≠ [] ∧ os.nul ∉ binding.1 ∧ os.nul ∉ binding.2)) ∧
    config.dotEnvSets " KEY = \x22a b\x22 ".toList = [("KEY".toList, "a b".toList)] ∧
    config.dotEnvSets "KEY=\x27a b\x27".toList = [("KEY".toList, "a b".toList)] ∧
    config.dotEnvSets "KEY=\x22a b\x27".toList = [("KEY".toList, "\x22a b\x27".toList)] ∧
    config.dotEnvSets "KEY=\x27".toList = [("KEY".toList, "\x27".toList)] ∧
    config.dotEnvSets "KEY=a=b".toList = [("KEY".toList, "a=b".toList)] ∧
    config.dotEnvSets "  # KEY=a".toList = [] ∧
    config.dotEnvSets "KEY".toList = [] ∧
    config.dotEnvSets "   ".toList = [] ∧
    config.dotEnvSets "=v".toList = [] := by
  have hcalls := dotEnvCalls_eq_bindings content
  unfold spec.dotEnvBindings at hcalls
  have hsets := dotEnvSets_eq content
  have hfun : spec.settable =
      (fun binding : Str × Str =>
        decide (binding.1 ≠ [] ∧ os.nul ∉ binding.1 ∧ os.nul ∉ binding.2)) := by
    funext binding
    rfl
  rw [hfun] at hsets
  refine ⟨hcalls, hsets, ?_, by decide, by decide, by decide, by decide, by decide,
    by decide, by decide, by decide, by decide⟩
  intro h modTime hstat hread
  have hload : config.loadDotEnvSets h = config.dotEnvSets content := by
    unfold config.loadDotEnvSets config.loadDotEnv config.dotEnvSets
    rw [hstat, hread]
  rw [hload]
  exact hsets

set_option maxRecDepth 20000 in
/-- Witness for C15 as amended: a `.env` file with a quoted token, a
comment and a value with a lone quote sets two bindings. -/
theorem C15_dotenv_bindings_witness :
    sample.dotEnvHost.stat ".env".toList = .ok 0 ∧
      config.loadDotEnvSets sample.dotEnvHost =
        [("CF_API_TOKEN".toList, "abc".toList), ("WEBHOOK_URL".toList, "\x27x".toList)] :=
  ⟨rfl,
   ((C15_dotenv_bindings "CF_API_TOKEN = \x22abc\x22\n# note\nWEBHOOK_URL=\x27x".toList).2.2.1
      sample.dotEnvHost 0 rfl rfl).trans (by decide)⟩

set_option maxRecDepth 20000 in
/-- Counterexample to C15 as stated: for the `.env` content made of the
lines `=v` and `A=1`, the first line is neither blank nor a comment and has
an `=`, so the claim has it set the empty key to `v`; `loadDotEnv` calls
`os.Setenv` with the empty key, the call fails, and only `A` is set. -/
theorem C15_empty_key_sets_nothing :
    spec.dotEnvBindings "=v\nA=1".toList =
        [([], "v".toList), ("A".toList, "1".toList)] ∧
      config.loadDotEnv sample.emptyKeyHost =
        [([], "v".toList), ("A".toList, "1".toList)] ∧
      os.setenvFails [] "v".toList = true ∧
      config.loadDotEnvSets sample.emptyKeyHost = [("A".toList, "1".toList)] ∧
      config.loadDotEnvSets sample.emptyKeyHost ≠ spec.dotEnvBindings "=v\nA=1".toList := by
  refine ⟨by decide, by decide, by decide, by decide, by decide⟩

/-! ### A tick whose probe fails -/

/-- The probe fails when every endpoint fails. -/
theorem discover_all_fail (fetch : Str → Option Str) (urls : List Str)
    (hfail : ∀ url ∈ urls, fetch url = none) : service.discover fetch urls = none := by
  induction urls with
  | nil => rfl
  | cons url rest ih =>
    unfold service.discover
    rw [hfail url (List.mem_cons_self _ _)]
    exact ih (fun u hu => hfail u (List.mem_cons_of_mem _ hu))

set_option maxRecDepth 20000 in
/-- With a working probe and a stale record at the provider, the tick does
call `updateRecord` with the discovered address. -/
theorem tick_updates_stale_record :
    service.tick (fun _ => some "203.0.113.42".toList) sample.echoURLs sample.findStale
        sample.updateOk (fun a b => a == b) [sample.record 300] =
      [.updateRecord "rec-1".toList (sample.record 300) "203.0.113.42".toList,
       .notifySuccess "198.51.100.7".toList "203.0.113.42".toList
         "home.example.com".toList] := by
  decide

/-- C19: in a tick in which every echo endpoint fails, no `updateRecord`
call is issued, whatever the desired records are; the tick emits one
`failure` notification and nothing else. -/
theorem C19_probe_failure_no_update (fetch : Str → Option Str) (urls : List Str)
    (findRecord : config.DNSRecord → Except cloudflare.ClientError cloudflare.DNSRecord)
    (updateRecord : Str → config.DNSRecord → Str → Except cloudflare.ClientError Unit)
    (ttlMatches : Int → Int → Bool) (desired : List config.DNSRecord)
    (hfail : ∀ url ∈ urls, fetch url = none) :
    (service.tick fetch urls findRecord updateRecord ttlMatches desired).filter
        service.TickEvent.isUpdate = [] ∧
      (service.tick fetch urls findRecord updateRecord ttlMatches desired).length = 1 := by
  unfold service.tick
  rw [discover_all_fail fetch urls hfail]
  exact ⟨rfl, rfl⟩

set_option maxRecDepth 20000 in
/-- Witness for C19: with the four default endpoints all failing and a
stale record at the provider, the tick issues no `updateRecord` call. -/
theorem C19_probe_failure_no_update_witness :
    (∀ url ∈ sample.echoURLs, (fun _ : Str => (none : Option Str)) url = none) ∧
      (service.tick (fun _ => none) sample.echoURLs sample.findStale sample.updateOk
          (fun a b => a == b) [sample.record 300]).filter service.TickEvent.isUpdate = [] :=
  ⟨fun _ _ => rfl,
   (C19_probe_failure_no_update (fun _ => none) sample.echoURLs sample.findStale
      sample.updateOk (fun a b => a == b) [sample.record 300] (fun _ _ => rfl)).1⟩

/-! ### Escaping a text that contains backslashes -/

set_option maxRecDepth 20000 in
/-- C21, the code at the failing input: for the text made of a backslash
and a dot, `escapeMarkdown` returns two backslashes and the dot, so the dot,
one of the 18 special characters, stands after a maximal run of two
backslashes, which is even: it is not escaped.  The template `markdown`
sends this text as the message. -/
theorem C21_backslash_input_unescapes :
    webhook.escapeMarkdown "\\.".toList = "\\\\".toList ++ '.' :: [] ∧
      '.' ∈ spec.markdownSpecials ∧
      spec.backslashRunBefore "\\\\".toList = 2 ∧
      ¬ spec.EscapedAfter "\\\\".toList ∧
      ((sample.telegramClient "markdown".toList true true true).tgMessage
          "t".toList "\\.".toList "d".toList).Text =
        "*t*\n".toList ++ ("\\\\".toList ++ '.' :: "\n\n```\nd\n```".toList) := by
  refine ⟨by decide, by decide, by decide, ?_, by decide⟩
  unfold spec.EscapedAfter
  decide

/-- The run of backslashes at the end of a text that is extended by one
character. -/
theorem backslashRunBefore_concat (front : Str) (y : Char) :
    spec.backslashRunBefore (front ++ [y]) =
      if y = '\\' then spec.backslashRunBefore front + 1 else 0 := by
  unfold spec.backslashRunBefore
  rw [List.reverse_append, List.reverse_singleton, List.singleton_append, List.takeWhile_cons]
  by_cases hy : y = '\\'
  · simp [hy]
  · simp [hy]

/-- The one-pass escaping of a text extended by one character. -/
theorem escapeMarkdownOnePass_concat (xs : Str) (x : Char) :
    spec.escapeMarkdownOnePass (xs ++ [x]) =
      spec.escapeMarkdownOnePass xs ++
        (if x ∈ spec.markdownSpecials then ['\\', x] else [x]) := by
  simp [spec.escapeMarkdownOnePass, List.flatMap_append]

/-- The escaping of a text without backslashes does not end with a
backslash. -/
theorem escapeMarkdownOnePass_no_trailing_backslash (text : Str) (hback : '\\' ∉ text) :
    spec.backslashRunBefore (spec.escapeMarkdownOnePass text) = 0 := by
  rcases List.eq_nil_or_concat text with rfl | ⟨xs, x, rfl⟩
  · rfl
  · have hx : x ≠ '\\' := fun h => hback (by simp [h])
    rw [List.concat_eq_append, escapeMarkdownOnePass_concat]
    by_cases hs : x ∈ spec.markdownSpecials
    · rw [if_pos hs, show spec.escapeMarkdownOnePass xs ++ ['\\', x] =
        (spec.escapeMarkdownOnePass xs ++ ['\\']) ++ [x] by simp,
        backslashRunBefore_concat, if_neg hx]
    · rw [if_neg hs, backslashRunBefore_concat, if_neg hx]

/-- For a text without backslashes, every special character of the one-pass
escaping stands after a maximal run of exactly one backslash. -/
theorem escapeMarkdownOnePass_run_one (text : Str) (hback : '\\' ∉ text)
    (front : Str) (c : Char) (back : Str)
    (hout : spec.escapeMarkdownOnePass text = front ++ c :: back)
    (hc : c ∈ spec.markdownSpecials) :
    spec.backslashRunBefore front = 1 := by
  have hnot : '\\' ∉ spec.markdownSpecials := by decide
  induction text using List.reverseRecOn generalizing front back with
  | nil =>
    exfalso
    have hlen := congrArg List.length hout
    simp [spec.escapeMarkdownOnePass] at hlen
    omega
  | append_singleton xs x ih =>
    have hxs : '\\' ∉ xs := fun h => hback (by simp [h])
    rw [escapeMarkdownOnePass_concat] at hout
    rcases List.eq_nil_or_concat back with rfl | ⟨back1, b, rfl⟩
    · -- the special character is the last character of the output
      by_cases hs : x ∈ spec.markdownSpecials
      · rw [if_pos hs, show spec.escapeMarkdownOnePass xs ++ ['\\', x] =
          (spec.escapeMarkdownOnePass xs ++ ['\\']) ++ [x] by simp] at hout
        have hfront := (List.append_inj' hout rfl).1
        rw [← hfront, backslashRunBefore_concat, if_pos rfl,
          escapeMarkdownOnePass_no_trailing_backslash xs hxs]
      · rw [if_neg hs] at hout
        have hcx := (List.append_inj' hout rfl).2
        exact absurd ((List.cons.inj hcx).1 ▸ hc) hs
    · rw [List.concat_eq_append] at hout
      by_cases hs : x ∈ spec.markdownSpecials
      · rw [if_pos hs, show spec.escapeMarkdownOnePass xs ++ ['\\', x] =
          (spec.escapeMarkdownOnePass xs ++ ['\\']) ++ [x] by simp,
          show front ++ c :: (back1 ++ [b]) = (front ++ c :: back1) ++ [b] by simp] at hout
        have hinit := (List.append_inj' hout rfl).1
        rcases List.eq_nil_or_concat back1 with rfl | ⟨back2, b2, rfl⟩
        · have hcb := (List.append_inj' hinit rfl).2
          exact absurd ((List.cons.inj hcb).1 ▸ hc) hnot
        · rw [List.concat_eq_append,
            show front ++ c :: (back2 ++ [b2]) = (front ++ c :: back2) ++ [b2] by simp] at hinit
          exact ih hxs front back2 (List.append_inj' hinit rfl).1
      · rw [if_neg hs,
          show front ++ c :: (back1 ++ [b]) = (front ++ c :: back1) ++ [b] by simp] at hout
        exact ih hxs front back1 (List.append_inj' hout rfl).1

/-- For a text without backslashes, every special character in the output
of `escapeMarkdown` is escaped. -/
theorem escapeMarkdown_escaped_without_backslash (text : Str) (hback : '\\' ∉ text)
    (front : Str) (c : Char) (back : Str)
    (hout : webhook.escapeMarkdown text = front ++ c :: back)
    (hc : c ∈ spec.markdownSpecials) :
    spec.EscapedAfter front := by
  rw [escapeMarkdown_eq_onePass] at hout
  unfold spec.EscapedAfter
  rw [escapeMarkdownOnePass_run_one text hback front c back hout hc]

end Cfddns
